import Mathlib

/-!
Verification development for the TOON-vs-JSON Gemini benchmark harness
(`src/toon-vs-json.ts`, `src/aggregate-reports.ts`).

Modelling conventions:
* JavaScript strings are modelled as `List Char` (`Str`); the JS string
  operations used by the source (`split`, `trim`, `includes`, `startsWith`,
  `endsWith`) are transliterated as executable list functions below.
* JavaScript numbers are modelled as `ℚ`; `NaN` is modelled by `Option`
  (`none` = NaN) at the points where the source can actually produce it
  (`Number`, `parseInt`, `parseFloat`, `Math.max` with a NaN operand).
  Floating-point rounding is not modelled.
* Thrown exceptions are modelled by `Option` (`none` = throw) in the
  functions that can throw.
-/

namespace TJB

/-- JS strings are lists of characters. -/
abbrev Str := List Char

/-- Shorthand to turn a Lean string literal into the `Str` model. -/
def str (s : String) : Str := s.toList

/-- The whitespace characters recognised by the JS `trim` / leading-space
skipping of `parseInt`/`parseFloat`/`Number` (the common ASCII subset; the
strings handled by this program contain no exotic whitespace). -/
def jsWs (c : Char) : Bool := c = ' ' || c = '\t' || c = '\n' || c = '\r'

/-- `hasPre p s` : does `s` start with `p` (JS `String.prototype.startsWith`). -/
def hasPre : Str → Str → Bool
  | [], _ => true
  | _ :: _, [] => false
  | p :: ps, c :: cs => p = c && hasPre ps cs

/-- JS `String.prototype.endsWith`. -/
def hasSuf (suf s : Str) : Bool := hasPre suf.reverse s.reverse

/-- JS `String.prototype.includes` (substring containment). -/
def containsSub (needle : Str) : Str → Bool
  | [] => needle.isEmpty
  | c :: cs => hasPre needle (c :: cs) || containsSub needle cs

/-- The remainder of `s` after the first occurrence of `marker`
(used to model a regex capture `marker(.+)` on a line). `none` when
`marker` does not occur. -/
def afterFirst (marker : Str) : Str → Option Str
  | [] => if marker.isEmpty then some [] else none
  | c :: cs =>
    if hasPre marker (c :: cs) then some (List.drop marker.length (c :: cs))
    else afterFirst marker cs

/-- JS `String.prototype.split(sep)` for a one-character separator: a
separator opens a new leading segment, any other character extends the
first segment (the recursive result is never empty). -/
def splitChar (sep : Char) : Str → List Str
  | [] => [[]]
  | c :: cs =>
    let r := splitChar sep cs
    if c = sep then [] :: r else (c :: r.headD []) :: r.tail

/-- JS `String.prototype.trim`. -/
def jsTrim (s : Str) : Str := ((s.dropWhile jsWs).reverse.dropWhile jsWs).reverse

/-- JS `Array.prototype.join(sep)` for string arrays. -/
def joinWith (sep : Str) : List Str → Str
  | [] => []
  | [x] => x
  | x :: y :: ys => x ++ sep ++ joinWith sep (y :: ys)

/-! ### Decimal digit rendering and parsing -/

/-- One decimal digit as a character. -/
def digitChar : ℕ → Char
  | 0 => '0' | 1 => '1' | 2 => '2' | 3 => '3' | 4 => '4'
  | 5 => '5' | 6 => '6' | 7 => '7' | 8 => '8' | _ => '9'

/-- Numeric value of a digit character. -/
def digitVal (c : Char) : ℕ := c.toNat - 48

/-- Value of a digit string, most significant digit first. -/
def digitsVal (s : Str) : ℕ := s.foldl (fun a c => 10 * a + digitVal c) 0

/-- The usual decimal rendering of a natural number (JS `String(n)` for a
nonnegative integer). -/
def natToDigits (n : ℕ) : Str :=
  if h : n < 10 then [digitChar n]
  else natToDigits (n / 10) ++ [digitChar (n % 10)]
termination_by n
decreasing_by exact Nat.div_lt_self (by omega) (by omega)

/-- Insert a `,` after every three characters of a reversed digit string
(helper for the en-US `toLocaleString` grouping). -/
def group3 (ds : Str) : Str :=
  if h : ds.length ≤ 3 then ds
  else ds.take 3 ++ ',' :: group3 (ds.drop 3)
termination_by ds.length
decreasing_by simp [List.length_drop]; omega

/-- JS `Number.prototype.toLocaleString()` under the en-US default locale,
for the nonnegative integers this program feeds it (token counts and
`Math.round`ed averages): decimal digits with `,` thousands separators.
Non-integral inputs do not occur on the rendering paths in scope. -/
def toLocaleStringNat (n : ℕ) : Str := (group3 (natToDigits n).reverse).reverse

/-- JS `parseInt(s, 10)`: skip leading whitespace, optional sign, then a
maximal digit prefix; NaN (`none`) when there is no digit. -/
def jsParseIntCore (r : Str) : Option ℕ :=
  let ds := r.takeWhile Char.isDigit
  if ds.isEmpty then none else some (digitsVal ds)

/-- JS `parseInt(s, 10)` (sign handling; hex prefixes do not occur here). -/
def jsParseInt (s : Str) : Option ℤ :=
  match s.dropWhile jsWs with
  | '-' :: r => (jsParseIntCore r).map (fun n => -(n : ℤ))
  | '+' :: r => (jsParseIntCore r).map (fun n => (n : ℤ))
  | r => (jsParseIntCore r).map (fun n => (n : ℤ))

/-- Magnitude part of JS `parseFloat`: a maximal `digits[.digits]` prefix.
`none` = NaN (no digits at all). Exponent suffixes are not modelled; the
program only applies this to `[0-9.]`-only regex captures. -/
def jsParseFloatCore (r : Str) : Option ℚ :=
  let ds := r.takeWhile Char.isDigit
  let rest := r.drop ds.length
  let fs : Str := if rest.headD ' ' = '.' then (rest.drop 1).takeWhile Char.isDigit else []
  if ds.isEmpty && fs.isEmpty then none
  else some ((digitsVal ds : ℚ) + (digitsVal fs : ℚ) / ((10 : ℚ) ^ fs.length))

/-- JS `parseFloat`. -/
def jsParseFloat (s : Str) : Option ℚ :=
  match s.dropWhile jsWs with
  | '-' :: r => (jsParseFloatCore r).map Neg.neg
  | '+' :: r => jsParseFloatCore r
  | r => jsParseFloatCore r

/-- JS `Number(s)` on the decimal fragment: trimmed-empty is `0`; otherwise
an optional sign followed by `digits`, `digits.digits`, `.digits` or
`digits.` consuming the whole string; anything else is NaN (`none`).
(Hex, exponent and `Infinity` literals are not modelled.) -/
def jsNumberCore (r : Str) : Option ℚ :=
  let ds := r.takeWhile Char.isDigit
  match r.drop ds.length with
  | [] => if ds.isEmpty then none else some (digitsVal ds)
  | '.' :: r2 =>
    let fs := r2.takeWhile Char.isDigit
    if !(r2.drop fs.length).isEmpty then none
    else if ds.isEmpty && fs.isEmpty then none
    else some ((digitsVal ds : ℚ) + (digitsVal fs : ℚ) / ((10 : ℚ) ^ fs.length))
  | _ => none

/-- JS `Number(s)` (decimal fragment, see `jsNumberCore`). -/
def jsNumber (s : Str) : Option ℚ :=
  match jsTrim s with
  | [] => some 0
  | '-' :: r => (jsNumberCore r).map Neg.neg
  | '+' :: r => jsNumberCore r
  | r => jsNumberCore r

/-- JS `Math.max(a, x)` where `x` may be NaN: NaN absorbs. -/
def jsMax (a : ℚ) : Option ℚ → Option ℚ
  | none => none
  | some x => some (max a x)

/-- JS `Math.round`: `⌊x + 1/2⌋` (ties toward +∞). -/
def jsRound (q : ℚ) : ℤ := ⌊q + 1 / 2⌋

/-- Exactly `k` decimal digits of `m` (with leading zeros), most significant
first; helper for `toFixed`. -/
def padDigits : ℕ → ℕ → Str
  | 0, _ => []
  | k + 1, m => padDigits k (m / 10) ++ [digitChar (m % 10)]

/-- JS `Number.prototype.toFixed(k)` for a nonnegative argument: render
`n / 10^k` where `n` is the integer nearest `q * 10^k`, ties to the larger
`n` (ECMA-262 Number.prototype.toFixed step 10). -/
def jsToFixedAbs (k : ℕ) (q : ℚ) : Str :=
  let n : ℕ := (⌊q * ((10 : ℚ) ^ k) + 1 / 2⌋).toNat
  if k = 0 then natToDigits n
  else natToDigits (n / 10 ^ k) ++ '.' :: padDigits k (n % 10 ^ k)

/-- JS `Number.prototype.toFixed(k)`: a `-` sign is emitted first and the
magnitude is rounded (so `-0.04` renders as `-0.0`). -/
def jsToFixed (k : ℕ) (q : ℚ) : Str :=
  if q < 0 then '-' :: jsToFixedAbs k (-q) else jsToFixedAbs k q

/-- The value recovered by parsing the `toFixed(1)` rendering of a
nonnegative duration: the duration rounded to one decimal digit. -/
def round1 (q : ℚ) : ℚ := ((⌊q * 10 + 1 / 2⌋).toNat : ℚ) / 10

/-! ### Trial-side data model (`src/toon-vs-json.ts`) -/

/-- `interface FormatMetrics` of `toon-vs-json.ts`. The `format` tag is kept
as a string (`'JSON' | 'TOON' | 'MARKDOWN'`); `usageMetadata`/`rawResponse`
are opaque payloads not touched by any computation in scope and are omitted. -/
structure FormatMetrics where
  format : Str
  conversionMs : ℚ
  preflightTokenCount : ℚ
  apiLatencyMs : ℚ
  responsePromptTokenCount : Option ℚ
  responseTotalTokenCount : Option ℚ
  responseTextExcerpt : Str
deriving DecidableEq, Repr

/-- One pairwise delta record of `ComparisonSummary.deltas`. -/
structure PairDeltas where
  tokenSavings : ℚ
  tokenSavingsPercent : ℚ
  apiLatencyDeltaMs : ℚ
  conversionOverheadMs : ℚ
deriving DecidableEq, Repr

/-- The three fixed comparison pairs of `toon-vs-json.ts`. -/
structure ComparisonDeltas where
  toonVsJson : PairDeltas
  markdownVsJson : PairDeltas
  markdownVsToon : PairDeltas
deriving DecidableEq, Repr

/-- `interface ComparisonSummary` of `toon-vs-json.ts` (one trial). -/
structure ComparisonSummary where
  model : Str
  datasetPath : Str
  timestamp : Str
  formats : List FormatMetrics
  deltas : ComparisonDeltas
deriving DecidableEq, Repr

/-- `computeDeltas` (`toon-vs-json.ts` lines 354-391). The JS truthiness
guard `jsonMetrics.preflightTokenCount ? … : 0` becomes a `= 0` test
(`0` is the only falsy rational; NaN cannot arise on this path). -/
def computeDeltas (jsonMetrics toonMetrics markdownMetrics : FormatMetrics) :
    ComparisonDeltas where
  toonVsJson :=
    { tokenSavings := jsonMetrics.preflightTokenCount - toonMetrics.preflightTokenCount
      tokenSavingsPercent :=
        if jsonMetrics.preflightTokenCount = 0 then 0
        else (jsonMetrics.preflightTokenCount - toonMetrics.preflightTokenCount) /
          jsonMetrics.preflightTokenCount * 100
      apiLatencyDeltaMs := jsonMetrics.apiLatencyMs - toonMetrics.apiLatencyMs
      conversionOverheadMs := toonMetrics.conversionMs - jsonMetrics.conversionMs }
  markdownVsJson :=
    { tokenSavings := jsonMetrics.preflightTokenCount - markdownMetrics.preflightTokenCount
      tokenSavingsPercent :=
        if jsonMetrics.preflightTokenCount = 0 then 0
        else (jsonMetrics.preflightTokenCount - markdownMetrics.preflightTokenCount) /
          jsonMetrics.preflightTokenCount * 100
      apiLatencyDeltaMs := jsonMetrics.apiLatencyMs - markdownMetrics.apiLatencyMs
      conversionOverheadMs := markdownMetrics.conversionMs - jsonMetrics.conversionMs }
  markdownVsToon :=
    { tokenSavings := toonMetrics.preflightTokenCount - markdownMetrics.preflightTokenCount
      tokenSavingsPercent :=
        if toonMetrics.preflightTokenCount = 0 then 0
        else (toonMetrics.preflightTokenCount - markdownMetrics.preflightTokenCount) /
          toonMetrics.preflightTokenCount * 100
      apiLatencyDeltaMs := toonMetrics.apiLatencyMs - markdownMetrics.apiLatencyMs
      conversionOverheadMs := markdownMetrics.conversionMs - toonMetrics.conversionMs }

/-- The fastest-format computation shared by `getFastestFormat`
(`toon-vs-json.ts` lines 554-566) and `aggregateReports`
(`aggregate-reports.ts` lines 354-361): build the `(format, latency)` list in
the order JSON, TOON, MARKDOWN, sort ascending by latency, take the head.
JS `Array.prototype.sort` is stable, so a stable insertion sort models it. -/
def fastestByLatency (jsonLat toonLat markdownLat : ℚ) : Str :=
  let latencies := [(str "JSON", jsonLat), (str "TOON", toonLat), (str "MARKDOWN", markdownLat)]
  match latencies.insertionSort (fun a b => a.2 ≤ b.2) with
  | [] => str "JSON"
  | p :: _ => p.1

/-- `getFastestFormat` (`toon-vs-json.ts` lines 554-566). -/
def getFastestFormat (jsonMetrics toonMetrics markdownMetrics : FormatMetrics) : Str :=
  fastestByLatency jsonMetrics.apiLatencyMs toonMetrics.apiLatencyMs markdownMetrics.apiLatencyMs

/-- The spec's description of fastest-format selection: the first entry of
the fixed enumeration JSON, TOON, MARKDOWN whose latency attains the minimum. -/
def fastestFormatSpec (jsonLat toonLat markdownLat : ℚ) : Option Str :=
  ([(str "JSON", jsonLat), (str "TOON", toonLat), (str "MARKDOWN", markdownLat)].find?
    (fun p => decide (p.2 ≤ jsonLat ∧ p.2 ≤ toonLat ∧ p.2 ≤ markdownLat))).map (·.1)

/-! ### CLI argument parsing (`src/toon-vs-json.ts` lines 240-248) -/

/-- `interface SeriesOptions`; the fields are `Option ℚ` because
`Math.max(_, Number(malformed))` is NaN. (`repeat` is a Lean keyword, hence
`repeatCount`.) -/
structure SeriesOptions where
  repeatCount : Option ℚ
  delayMs : Option ℚ
deriving DecidableEq, Repr

/-- `arg.split('=')[1]` (`undefined` = `none`, which `Number` maps to NaN). -/
def splitEqSecond (arg : Str) : Option Str := (splitChar '=' arg)[1]?

/-- `parseCliArgs` (`toon-vs-json.ts` lines 240-248). -/
def parseCliArgs (argv : List Str) : SeriesOptions :=
  let repeatArg := argv.find? (fun arg => hasPre (str "--repeat=") arg)
  let delayArg := argv.find? (fun arg => hasPre (str "--delayMs=") arg)
  { repeatCount :=
      match repeatArg with
      | none => some 1
      | some arg => jsMax 1 ((splitEqSecond arg).bind jsNumber)
    delayMs :=
      match delayArg with
      | none => some 20000
      | some arg => jsMax 0 ((splitEqSecond arg).bind jsNumber) }

/-! ### Report Writer (`generateMarkdownReport`, `toon-vs-json.ts` lines 487-552) -/

/-- `formatMs` (`toon-vs-json.ts` line 231-233): `ms.toFixed(1) + 'ms'`. -/
def formatMs (ms : ℚ) : Str := jsToFixed 1 ms ++ str "ms"

/-- `formatExcerpt` (`toon-vs-json.ts` lines 579-582). -/
def formatExcerpt (excerpt : Str) : Str :=
  if excerpt.isEmpty then str "_No response text captured._"
  else if hasPre (str "```") excerpt then excerpt
  else str "> " ++ excerpt

/-- `x.toLocaleString()` for the integral values this program renders
(token counts, integer savings, `Math.round`ed averages); negative integers
get a leading `-`. Non-integral inputs do not occur on any rendering path in
scope (§3 invariant: token counts are integers), so only `⌊q⌋` is rendered. -/
def toLocaleStringQ (q : ℚ) : Str :=
  if ⌊q⌋ < 0 then '-' :: toLocaleStringNat ⌊q⌋.natAbs else toLocaleStringNat ⌊q⌋.toNat

/-- `metrics.responsePromptTokenCount?.toLocaleString() ?? 'n/a'` — an
optional count cell. -/
def optCountCell (o : Option ℚ) : Str :=
  match o with
  | some c => toLocaleStringQ c
  | none => str "n/a"

/-- One metrics-table row of the per-trial report (`toon-vs-json.ts` lines
494-505): the six cells joined with `' | '`; an absent optional count renders
as `'n/a'`. -/
def metricsRow (metrics : FormatMetrics) : Str :=
  joinWith (str " | ")
    [metrics.format,
     toLocaleStringQ metrics.preflightTokenCount,
     optCountCell metrics.responsePromptTokenCount,
     optCountCell metrics.responseTotalTokenCount,
     formatMs metrics.conversionMs,
     formatMs metrics.apiLatencyMs]

/-- One executive-summary token-efficiency line (`toon-vs-json.ts` lines
516-518; the three lines differ only in the pair label and the two format
names): `label + winner + ' saved ' + |savings| + ' tokens (' + pct + '%)'`. -/
def savingsLine (label winner loser : Str) (d : PairDeltas) : Str :=
  label ++ (if d.tokenSavings > 0 then winner else loser) ++ str " saved " ++
    toLocaleStringQ |d.tokenSavings| ++ str " tokens (" ++
    jsToFixed 1 d.tokenSavingsPercent ++ str "%)"

/-- The line list of the per-trial Markdown report template
(`toon-vs-json.ts` lines 507-551), given the three looked-up metrics.
The `${rows}` splice is `summary.formats.map(metricsRow)` in list order.
`path.relative` applied to the dataset path is an external collaborator and
is modelled as the stored path string. -/
def reportLines (summary : ComparisonSummary)
    (jsonMetrics toonMetrics markdownMetrics : FormatMetrics) : List Str :=
  [str "# Gemini Benchmark Report",
   [],
   str "- **Model used:** " ++ summary.model,
   str "- **Dataset:** " ++ summary.datasetPath,
   str "- **Run timestamp:** " ++ summary.timestamp,
   [],
   str "## Executive Summary",
   [],
   str "### Token Efficiency",
   savingsLine (str "- TOON vs JSON: ") (str "TOON") (str "JSON") summary.deltas.toonVsJson,
   savingsLine (str "- MARKDOWN vs JSON: ") (str "MARKDOWN") (str "JSON") summary.deltas.markdownVsJson,
   savingsLine (str "- MARKDOWN vs TOON: ") (str "MARKDOWN") (str "TOON") summary.deltas.markdownVsToon,
   [],
   str "### Latency",
   str "- Fastest format: " ++ getFastestFormat jsonMetrics toonMetrics markdownMetrics,
   str "- TOON conversion overhead: " ++ formatMs summary.deltas.toonVsJson.conversionOverheadMs,
   str "- MARKDOWN conversion overhead: " ++ formatMs summary.deltas.markdownVsJson.conversionOverheadMs,
   [],
   str "## Detailed Metrics",
   [],
   str "Format | Input tokens sent | Prompt tokens in response | Total tokens in response | Data prep time | Gemini response time",
   str "--- | --- | --- | --- | --- | ---"] ++
  summary.formats.map metricsRow ++
  [[],
   str "## Response Highlights",
   [],
   str "### JSON input",
   formatExcerpt jsonMetrics.responseTextExcerpt,
   [],
   str "### TOON input",
   formatExcerpt toonMetrics.responseTextExcerpt,
   [],
   str "### MARKDOWN input",
   formatExcerpt markdownMetrics.responseTextExcerpt,
   [],
   str "## Metric Definitions",
   [],
   str "- **Input tokens sent**: Tokens counted before calling Gemini (via the Count Tokens API).",
   str "- **Prompt tokens in response**: Tokens Gemini reports as used from the request after processing.",
   str "- **Total tokens in response**: Combined prompt and output token count reported by Gemini.",
   str "- **Data prep time**: Time spent preparing the payload (JSON formatting, TOON encoding, or Markdown conversion).",
   str "- **Gemini response time**: End-to-end latency for `models.generateContent`.",
   str "- **Response highlights**: A short excerpt of Gemini's answer to compare tone and content.",
   [],
   []]

/-- `generateMarkdownReport` (`toon-vs-json.ts` lines 487-552). The three
`summary.formats.find(…)!` non-null assertions crash when a tag is missing;
that is modelled as `none`. -/
def generateMarkdownReport (summary : ComparisonSummary) : Option Str :=
  match summary.formats.find? (fun f => decide (f.format = str "JSON")),
        summary.formats.find? (fun f => decide (f.format = str "TOON")),
        summary.formats.find? (fun f => decide (f.format = str "MARKDOWN")) with
  | some jsonMetrics, some toonMetrics, some markdownMetrics =>
    some (joinWith ['\n'] (reportLines summary jsonMetrics toonMetrics markdownMetrics))
  | _, _, _ => none

/-! ### Report Reader (`src/aggregate-reports.ts`) -/

/-- `interface FormatMetrics` of `aggregate-reports.ts` (the parsed-side
record; all numeric fields are plain JS numbers there, so each is an
`Option ℚ` with `none` = NaN). -/
structure ParsedFormatMetrics where
  format : Str
  preflightTokenCount : Option ℚ
  responsePromptTokenCount : Option ℚ
  responseTotalTokenCount : Option ℚ
  conversionMs : Option ℚ
  apiLatencyMs : Option ℚ
deriving DecidableEq, Repr

/-- One pairwise entry of the parsed `ComparisonDeltas`. -/
structure ParsedPairDeltas where
  tokenSavings : Option ℚ
  tokenSavingsPercent : Option ℚ
  apiLatencyDeltaMs : Option ℚ
  conversionOverheadMs : Option ℚ
deriving DecidableEq, Repr

/-- `interface ComparisonDeltas` of `aggregate-reports.ts`. -/
structure ParsedComparisonDeltas where
  toonVsJson : ParsedPairDeltas
  markdownVsJson : ParsedPairDeltas
  markdownVsToon : ParsedPairDeltas
deriving DecidableEq, Repr

/-- `interface BenchmarkReport` of `aggregate-reports.ts`. -/
structure BenchmarkReport where
  timestamp : Str
  model : Str
  formats : List ParsedFormatMetrics
  deltas : ParsedComparisonDeltas
deriving DecidableEq, Repr

/-- NaN-propagating subtraction of JS numbers. -/
def jsSub : Option ℚ → Option ℚ → Option ℚ
  | some x, some y => some (x - y)
  | _, _ => none

/-- NaN-propagating addition of JS numbers. -/
def jsAdd : Option ℚ → Option ℚ → Option ℚ
  | some x, some y => some (x + y)
  | _, _ => none

/-- `parseNumber` (`aggregate-reports.ts` lines 64-67):
`parseInt(numString.replace(/,/g, ''), 10)`. -/
def parseNumber (s : Str) : Option ℤ :=
  jsParseInt (s.filter (fun c => decide (c ≠ ',')))

/-- Characters matched by the regex class `[\d.]`. -/
def digitDot (c : Char) : Bool := c.isDigit || c = '.'

/-- Characters matched by the regex class `[\d,]`. -/
def digitComma (c : Char) : Bool := c.isDigit || c = ','

/-- Backtracking step of the regex `([\d.]+)ms` at a fixed start position:
try group lengths from longest to shortest until `ms` follows. -/
def msTryLens (cs : Str) : ℕ → Option Str
  | 0 => none
  | k + 1 =>
    if hasPre (str "ms") (cs.drop (k + 1)) then some (cs.take (k + 1))
    else msTryLens cs k

/-- The regex `([\d.]+)ms` anchored at the current position: the candidate
run is the maximal `[\d.]` prefix. -/
def msMatchAt (cs : Str) : Option Str := msTryLens cs (cs.takeWhile digitDot).length

/-- Leftmost match of the regex `([\d.]+)ms`, returning the group. -/
def msSearch : Str → Option Str
  | [] => none
  | c :: cs =>
    match msMatchAt (c :: cs) with
    | some g => some g
    | none => msSearch cs

/-- `parseMs` (`aggregate-reports.ts` lines 58-62): the `([\d.]+)ms` group
through `parseFloat`, else `0`. -/
def parseMs (msString : Str) : Option ℚ :=
  match msSearch msString with
  | some g => jsParseFloat g
  | none => some 0

/-- `parseConversionOverhead` (`aggregate-reports.ts` lines 81-85): same
regex and default as `parseMs` (the source duplicates the body). Note the
regex cannot capture a leading `-`, so a negative overhead parses positive. -/
def parseConversionOverhead (line : Str) : Option ℚ :=
  match msSearch line with
  | some g => jsParseFloat g
  | none => some 0

/-- The regex `saved ([\d,]+) tokens \(([\d.]+)%\)` anchored at the current
position. Both classes exclude the character that follows them in the
pattern, so the maximal runs are the only candidates (no backtracking). -/
def savedTryAt (cs : Str) : Option (Str × Str) :=
  if hasPre (str "saved ") cs then
    let rest1 := cs.drop 6
    let r1 := rest1.takeWhile digitComma
    if r1.isEmpty then none
    else
      let rest2 := rest1.drop r1.length
      if hasPre (str " tokens (") rest2 then
        let rest3 := rest2.drop 9
        let r2 := rest3.takeWhile digitDot
        if r2.isEmpty then none
        else if hasPre (str "%)") (rest3.drop r2.length) then some (r1, r2)
        else none
      else none
  else none

/-- Leftmost match of `saved ([\d,]+) tokens \(([\d.]+)%\)`. -/
def savedSearch : Str → Option (Str × Str)
  | [] => none
  | c :: cs =>
    match savedTryAt (c :: cs) with
    | some r => some r
    | none => savedSearch cs

/-- `parseTokenSavings` (`aggregate-reports.ts` lines 69-79): the absolute
savings figure and the percent figure from the executive-summary prose
line, `(0, 0)` when the regex does not match. -/
def parseTokenSavings (line : Str) : Option ℚ × Option ℚ :=
  match savedSearch line with
  | some (r1, r2) => ((parseNumber r1).map (fun z => (z : ℚ)), jsParseFloat r2)
  | none => (some 0, some 0)

/-- One table row (`aggregate-reports.ts` line 110):
`line.split('|').map(p => p.trim()).filter(p => p)`. -/
def parseTableRow (line : Str) : List Str :=
  ((splitChar '|' line).map jsTrim).filter (fun p => !p.isEmpty)

/-- A `ParsedFormatMetrics` from the six leading row cells
(`aggregate-reports.ts` lines 112-126). -/
def rowToMetrics (p0 p1 p2 p3 p4 p5 : Str) : ParsedFormatMetrics where
  format := p0
  preflightTokenCount := (parseNumber p1).map (fun z => (z : ℚ))
  responsePromptTokenCount :=
    if p2 = str "n/a" then some 0 else (parseNumber p2).map (fun z => (z : ℚ))
  responseTotalTokenCount :=
    if p3 = str "n/a" then some 0 else (parseNumber p3).map (fun z => (z : ℚ))
  conversionMs := parseMs p4
  apiLatencyMs := parseMs p5

/-- The metrics-table extraction loop (`aggregate-reports.ts` lines
100-134): switch into table mode at the header marker, collect pipe rows
whose first cell is not `Format`/`---`, stop at the first `##` heading
reached while in table mode. -/
def extractTableFormats : List Str → Bool → List ParsedFormatMetrics → List ParsedFormatMetrics
  | [], _, fmts => fmts
  | line :: rest, inTable, fmts =>
    if containsSub (str "Format | Input tokens sent") line then
      extractTableFormats rest true fmts
    else
      let fmts' :=
        if inTable && containsSub (str "|") line then
          match parseTableRow line with
          | p0 :: p1 :: p2 :: p3 :: p4 :: p5 :: _ =>
            if p0 = str "Format" ∨ p0 = str "---" then fmts
            else fmts ++ [rowToMetrics p0 p1 p2 p3 p4 p5]
          | _ => fmts
        else fmts
      if inTable && hasPre (str "##") line then fmts'
      else extractTableFormats rest inTable fmts'

/-- First regex capture of `marker(.+)` over the content, scanning lines in
order (`.` does not cross line ends, and `+` needs at least one character). -/
def findCapture (marker : Str) (lines : List Str) : Option Str :=
  lines.findSome? (fun l =>
    match afterFirst marker l with
    | some rest => if rest.isEmpty then none else some rest
    | none => none)

/-- `parseMarkdownReport` (`aggregate-reports.ts` lines 87-193) on the file
content. Returns `none` both for the explicit row-count failure (lines
136-139) and for the `catch` path reached when one of the three
`formats.find(…)!` assertions yields `undefined` and the subsequent
property access throws. -/
def parseMarkdownReport (content : Str) : Option BenchmarkReport :=
  let lines := splitChar '\n' content
  let model := match findCapture (str "**Model used:** ") lines with
    | some m => jsTrim m
    | none => str "unknown"
  let timestamp := match findCapture (str "**Run timestamp:** ") lines with
    | some t => jsTrim t
    | none => []
  let formats := extractTableFormats lines false []
  if formats.length ≠ 3 then none
  else
    match formats.find? (fun f => decide (f.format = str "JSON")),
          formats.find? (fun f => decide (f.format = str "TOON")),
          formats.find? (fun f => decide (f.format = str "MARKDOWN")) with
    | some jsonMetrics, some toonMetrics, some markdownMetrics =>
      let toonVsJsonSavings :=
        match lines.find? (fun l => containsSub (str "TOON vs JSON:") l) with
        | some l => parseTokenSavings l
        | none => (some 0, some 0)
      let markdownVsJsonSavings :=
        match lines.find? (fun l => containsSub (str "MARKDOWN vs JSON:") l) with
        | some l => parseTokenSavings l
        | none => (some 0, some 0)
      let markdownVsToonSavings :=
        match lines.find? (fun l => containsSub (str "MARKDOWN vs TOON:") l) with
        | some l => parseTokenSavings l
        | none => (some 0, some 0)
      let toonOverhead :=
        match lines.find? (fun l => containsSub (str "TOON conversion overhead:") l) with
        | some l => parseConversionOverhead l
        | none => some 0
      let markdownOverhead :=
        match lines.find? (fun l => containsSub (str "MARKDOWN conversion overhead:") l) with
        | some l => parseConversionOverhead l
        | none => some 0
      some
        { timestamp := timestamp
          model := model
          formats := formats
          deltas :=
            { toonVsJson :=
                { tokenSavings := toonVsJsonSavings.1
                  tokenSavingsPercent := toonVsJsonSavings.2
                  apiLatencyDeltaMs := jsSub jsonMetrics.apiLatencyMs toonMetrics.apiLatencyMs
                  conversionOverheadMs := toonOverhead }
              markdownVsJson :=
                { tokenSavings := markdownVsJsonSavings.1
                  tokenSavingsPercent := markdownVsJsonSavings.2
                  apiLatencyDeltaMs := jsSub jsonMetrics.apiLatencyMs markdownMetrics.apiLatencyMs
                  conversionOverheadMs := markdownOverhead }
              markdownVsToon :=
                { tokenSavings := markdownVsToonSavings.1
                  tokenSavingsPercent := markdownVsToonSavings.2
                  apiLatencyDeltaMs := jsSub toonMetrics.apiLatencyMs markdownMetrics.apiLatencyMs
                  conversionOverheadMs := jsSub markdownOverhead toonOverhead } } }
    | _, _, _ => none

/-! ### Aggregator (`aggregateReports`, `aggregate-reports.ts` lines 199-511) -/

/-- JS default string comparison (code-unit lexicographic `<`-or-equal), the
order used by `Array.prototype.sort()` without a comparator. -/
def lexLe : Str → Str → Bool
  | [], _ => true
  | _ :: _, [] => false
  | x :: xs, y :: ys => if x = y then lexLe xs ys else decide (x.toNat < y.toNat)

/-- `averageMetrics` field group of `interface AggregatedSummary`. -/
structure AverageMetrics where
  JSON : ParsedFormatMetrics
  TOON : ParsedFormatMetrics
  MARKDOWN : ParsedFormatMetrics
deriving DecidableEq, Repr

/-- `dateRange` field group of `interface AggregatedSummary`. -/
structure DateRange where
  earliest : Str
  latest : Str
deriving DecidableEq, Repr

/-- `interface AggregatedSummary` of `aggregate-reports.ts`. -/
structure AggregatedSummary where
  totalRuns : ℕ
  model : Str
  dateRange : DateRange
  averageMetrics : AverageMetrics
  averageDeltas : ParsedComparisonDeltas
  fastestFormat : Str
deriving DecidableEq, Repr

/-- The bucket a parsed format entry is added to (`totals[format.format]`,
line 277): entries for one tag across all reports, in traversal order.
A successfully parsed report always carries exactly the three canonical
tags (the three `find` assertions in `parseMarkdownReport` succeeded on a
3-element list), so the JS bucket lookup never sees another tag. -/
def tagEntries (reports : List BenchmarkReport) (tag : Str) : List ParsedFormatMetrics :=
  reports.bind (fun r => r.formats.filter (fun f => decide (f.format = tag)))

/-- NaN-propagating sum, `0` for the empty list (the JS accumulators start
at `0`). -/
def sumOpt (xs : List (Option ℚ)) : Option ℚ := xs.foldl jsAdd (some 0)

/-- Division of a (possibly NaN) total by the report count. -/
def divCount (a : Option ℚ) (count : ℕ) : Option ℚ := a.map (fun x => x / (count : ℚ))

/-- One `averageMetrics` entry (`aggregate-reports.ts` lines 276-331): sums
of the bucket fields divided by the parsed-report count. -/
def avgFormat (reports : List BenchmarkReport) (count : ℕ) (tag : Str) : ParsedFormatMetrics :=
  let entries := tagEntries reports tag
  { format := tag
    preflightTokenCount := divCount (sumOpt (entries.map (·.preflightTokenCount))) count
    responsePromptTokenCount := divCount (sumOpt (entries.map (·.responsePromptTokenCount))) count
    responseTotalTokenCount := divCount (sumOpt (entries.map (·.responseTotalTokenCount))) count
    conversionMs := divCount (sumOpt (entries.map (·.conversionMs))) count
    apiLatencyMs := divCount (sumOpt (entries.map (·.apiLatencyMs))) count }

/-- One `averageDeltas` pair (`aggregate-reports.ts` lines 286-352). -/
def avgPair (reports : List BenchmarkReport) (count : ℕ)
    (getPair : ParsedComparisonDeltas → ParsedPairDeltas) : ParsedPairDeltas where
  tokenSavings := divCount (sumOpt (reports.map (fun r => (getPair r.deltas).tokenSavings))) count
  tokenSavingsPercent :=
    divCount (sumOpt (reports.map (fun r => (getPair r.deltas).tokenSavingsPercent))) count
  apiLatencyDeltaMs :=
    divCount (sumOpt (reports.map (fun r => (getPair r.deltas).apiLatencyDeltaMs))) count
  conversionOverheadMs :=
    divCount (sumOpt (reports.map (fun r => (getPair r.deltas).conversionOverheadMs))) count

/-- The fastest-format selection over possibly-NaN averages (lines 354-361).
The NaN branch is unreachable from any theorem below (it would make the JS
comparator return NaN, with engine-dependent but order-preserving TimSort
behaviour, i.e. the JSON-first head); the non-NaN branch is the shared
stable-sort computation. -/
def fastestOfAverages (a b c : Option ℚ) : Str :=
  match a, b, c with
  | some x, some y, some z => fastestByLatency x y z
  | _, _, _ => str "JSON"

/-- `Math.round(x).toLocaleString()` for a possibly-NaN JS number. -/
def roundLoc : Option ℚ → Str
  | some q =>
    if jsRound q < 0 then '-' :: toLocaleStringNat (jsRound q).natAbs
    else toLocaleStringNat (jsRound q).toNat
  | none => str "NaN"

/-- `Math.abs(Math.round(x)).toLocaleString()` for a possibly-NaN number. -/
def roundAbsLoc : Option ℚ → Str
  | some q => toLocaleStringNat (jsRound q).natAbs
  | none => str "NaN"

/-- `x.toFixed(k)` for a possibly-NaN number (`(NaN).toFixed` is `"NaN"`). -/
def toFixedOpt (k : ℕ) : Option ℚ → Str
  | some q => jsToFixed k q
  | none => str "NaN"

/-- `formatMs` of `aggregate-reports.ts` (line 195-197) applied to a
possibly-NaN average. -/
def formatMsOpt (a : Option ℚ) : Str := toFixedOpt 1 a ++ str "ms"

/-- JS `>` on possibly-NaN numbers (false when either side is NaN). -/
def optGt : Option ℚ → Option ℚ → Bool
  | some x, some y => decide (y < x)
  | _, _ => false

/-- JS `<` on possibly-NaN numbers. -/
def optLt : Option ℚ → Option ℚ → Bool
  | some x, some y => decide (x < y)
  | _, _ => false

/-- JS `Math.max` / `Math.min` on two possibly-NaN numbers. -/
def optMax : Option ℚ → Option ℚ → Option ℚ
  | some x, some y => some (max x y)
  | _, _ => none

/-- See `optMax`. -/
def optMin : Option ℚ → Option ℚ → Option ℚ
  | some x, some y => some (min x y)
  | _, _ => none

/-- One executive-summary savings line of the aggregate report
(`aggregate-reports.ts` lines 455-457). -/
def aggSavingsLine (label winner loser : Str) (d : ParsedPairDeltas) : Str :=
  label ++ (if optGt d.tokenSavings (some 0) then winner else loser) ++ str " saved " ++
    roundAbsLoc d.tokenSavings ++ str " tokens (" ++
    toFixedOpt 2 d.tokenSavingsPercent ++ str "%)"

/-- One metrics-table row of the aggregate report (lines 469-471). -/
def aggMetricsRow (label : Str) (m : ParsedFormatMetrics) : Str :=
  label ++ str " | " ++ roundLoc m.preflightTokenCount ++ str " | " ++
    roundLoc m.responsePromptTokenCount ++ str " | " ++
    roundLoc m.responseTotalTokenCount ++ str " | " ++
    formatMsOpt m.conversionMs ++ str " | " ++ formatMsOpt m.apiLatencyMs

/-- The three delta bullet lines of one `### pair` section (lines 475-488). -/
def aggDeltaSection (d : ParsedPairDeltas) (latencyLabel overheadLabel : Str) : List Str :=
  [str "- **Token savings:** " ++ roundLoc d.tokenSavings ++ str " tokens (" ++
     toFixedOpt 2 d.tokenSavingsPercent ++ str "%)",
   str "- **API latency delta (" ++ latencyLabel ++ str "):** " ++
     formatMsOpt d.apiLatencyDeltaMs,
   str "- **Conversion overhead (" ++ overheadLabel ++ str "):** " ++
     formatMsOpt d.conversionOverheadMs]

/-- `averageMetrics[summary.fastestFormat]` (line 494). `fastestFormat` is
always one of the three canonical tags. -/
def metricsOfFastest (summary : AggregatedSummary) : ParsedFormatMetrics :=
  if summary.fastestFormat = str "JSON" then summary.averageMetrics.JSON
  else if summary.fastestFormat = str "TOON" then summary.averageMetrics.TOON
  else summary.averageMetrics.MARKDOWN

/-- `generateSummaryReport` (`aggregate-reports.ts` lines 441-506) as its
line list joined with newlines. -/
def generateSummaryReport (summary : AggregatedSummary) : Str :=
  joinWith ['\n']
    ([str "# Overall Comparison Summary",
      [],
      str "- **Total Benchmark Runs:** " ++ natToDigits summary.totalRuns,
      str "- **Model Used:** " ++ summary.model,
      str "- **Date Range:** " ++ summary.dateRange.earliest ++ str " to " ++
        summary.dateRange.latest,
      str "- **Fastest Format (avg API latency):** " ++ summary.fastestFormat,
      [],
      str "## Executive Summary",
      [],
      str "### Token Efficiency (Average)",
      [],
      aggSavingsLine (str "- **TOON vs JSON:** ") (str "TOON") (str "JSON")
        summary.averageDeltas.toonVsJson,
      aggSavingsLine (str "- **MARKDOWN vs JSON:** ") (str "MARKDOWN") (str "JSON")
        summary.averageDeltas.markdownVsJson,
      aggSavingsLine (str "- **MARKDOWN vs TOON:** ") (str "MARKDOWN") (str "TOON")
        summary.averageDeltas.markdownVsToon,
      [],
      str "### Latency (Average)",
      [],
      str "- **Fastest format:** " ++ summary.fastestFormat,
      str "- **TOON conversion overhead:** " ++
        formatMsOpt summary.averageDeltas.toonVsJson.conversionOverheadMs,
      str "- **MARKDOWN conversion overhead:** " ++
        formatMsOpt summary.averageDeltas.markdownVsJson.conversionOverheadMs,
      [],
      str "## Detailed Average Metrics",
      [],
      str "Format | Input tokens sent | Prompt tokens in response | Total tokens in response | Data prep time | Gemini response time",
      str "--- | --- | --- | --- | --- | ---",
      aggMetricsRow (str "JSON") summary.averageMetrics.JSON,
      aggMetricsRow (str "TOON") summary.averageMetrics.TOON,
      aggMetricsRow (str "MARKDOWN") summary.averageMetrics.MARKDOWN,
      [],
      str "## Comparison Deltas (Average)",
      [],
      str "### TOON vs JSON"] ++
     aggDeltaSection summary.averageDeltas.toonVsJson (str "JSON - TOON") (str "TOON - JSON") ++
     [[],
      str "### MARKDOWN vs JSON"] ++
     aggDeltaSection summary.averageDeltas.markdownVsJson (str "JSON - MARKDOWN")
       (str "MARKDOWN - JSON") ++
     [[],
      str "### MARKDOWN vs TOON"] ++
     aggDeltaSection summary.averageDeltas.markdownVsToon (str "TOON - MARKDOWN")
       (str "MARKDOWN - TOON") ++
     [[],
      str "## Key Insights",
      [],
      str "1. **Token Efficiency:** " ++
        (if optGt summary.averageDeltas.toonVsJson.tokenSavingsPercent
            summary.averageDeltas.markdownVsJson.tokenSavingsPercent
         then str "TOON" else str "MARKDOWN") ++
        str " provides the best token savings compared to JSON (" ++
        toFixedOpt 2 (optMax summary.averageDeltas.toonVsJson.tokenSavingsPercent
          summary.averageDeltas.markdownVsJson.tokenSavingsPercent) ++
        str "% reduction).",
      [],
      str "2. **API Latency:** " ++ summary.fastestFormat ++
        str " has the fastest average API response time at " ++
        formatMsOpt (metricsOfFastest summary).apiLatencyMs ++ str ".",
      [],
      str "3. **Conversion Overhead:** " ++
        (if optLt summary.averageDeltas.toonVsJson.conversionOverheadMs
            summary.averageDeltas.markdownVsJson.conversionOverheadMs
         then str "TOON" else str "MARKDOWN") ++
        str " has lower conversion overhead (" ++
        formatMsOpt (optMin summary.averageDeltas.toonVsJson.conversionOverheadMs
          summary.averageDeltas.markdownVsJson.conversionOverheadMs) ++
        str ").",
      [],
      str "## Metric Definitions",
      [],
      str "- **Input tokens sent**: Tokens counted before calling Gemini (via the Count Tokens API).",
      str "- **Prompt tokens in response**: Tokens Gemini reports as used from the request after processing.",
      str "- **Total tokens in response**: Combined prompt and output token count reported by Gemini.",
      str "- **Data prep time**: Time spent preparing the payload (JSON formatting, TOON encoding, or Markdown conversion).",
      str "- **Gemini response time**: End-to-end latency for `models.generateContent`.",
      []])

/-- The summary built from a nonempty list of parsed reports
(`aggregate-reports.ts` lines 271-374). -/
def buildSummary (reports : List BenchmarkReport) : AggregatedSummary :=
  let count := reports.length
  let model0 := match reports.head? with
    | some r => r.model
    | none => []
  let model := if model0.isEmpty then str "unknown" else model0
  let timestamps :=
    (reports.map (·.timestamp)).insertionSort (fun a b => lexLe a b = true)
  let averageMetrics : AverageMetrics :=
    { JSON := avgFormat reports count (str "JSON")
      TOON := avgFormat reports count (str "TOON")
      MARKDOWN := avgFormat reports count (str "MARKDOWN") }
  { totalRuns := count
    model := model
    dateRange :=
      { earliest := timestamps.headD []
        latest := (timestamps.getLast?).getD [] }
    averageMetrics := averageMetrics
    averageDeltas :=
      { toonVsJson := avgPair reports count (·.toonVsJson)
        markdownVsJson := avgPair reports count (·.markdownVsJson)
        markdownVsToon := avgPair reports count (·.markdownVsToon) }
    fastestFormat := fastestOfAverages averageMetrics.JSON.apiLatencyMs
      averageMetrics.TOON.apiLatencyMs averageMetrics.MARKDOWN.apiLatencyMs }

/-- Outcome of one aggregation run: either the early `return` of the
zero-parseable-reports branch (lines 216-219) or the written summary with
its Markdown rendering. (The JSON snapshot is `JSON.stringify` of the same
`summary` value and is determined by it.) -/
inductive AggOutcome where
  | noValidReports
  | wrote (summary : AggregatedSummary) (markdown : Str)
deriving DecidableEq, Repr

/-- The report-collection loop (`aggregate-reports.ts` lines 206-214):
parse each file in sorted order, keep the successes. -/
def collectReports (contents : List Str) : List BenchmarkReport :=
  contents.filterMap parseMarkdownReport

/-- `aggregateReports` (`aggregate-reports.ts` lines 199-439) as a pure
function of the directory listing (file name, file content): filter `.md`
names, sort them, parse, and either bail out or build and render the
summary. -/
def aggregateReports (files : List (Str × Str)) : AggOutcome :=
  let markdownFiles :=
    (files.filter (fun f => hasSuf (str ".md") f.1)).insertionSort
      (fun a b => lexLe a.1 b.1 = true)
  let reports := collectReports (markdownFiles.map (·.2))
  if reports.isEmpty then AggOutcome.noValidReports
  else
    let summary := buildSummary reports
    AggOutcome.wrote summary (generateSummaryReport summary)

/-- The process exit code after `aggregateReports().catch(e =>
process.exitCode = 1)` (lines 508-511): both the empty branch (which
`console.error`s and returns normally) and the success branch resolve, so
the catch handler never fires and the exit code keeps its default `0`. -/
def aggregateRunExitCode (files : List (Str × Str)) : ℕ :=
  match aggregateReports files with
  | AggOutcome.noValidReports => 0
  | AggOutcome.wrote _ _ => 0

/-! ### Format Renderer (`jsonToMarkdown`, `toon-vs-json.ts` lines 80-199)

JSON-compatible values. A number is carried together with its JS `String(n)`
rendering, since no computation in scope does arithmetic on data values.
Object fields are kept in insertion order (the `Object.keys` order for the
non-integer-like keys these datasets use). Rendering returns `Option`:
`none` models a thrown `TypeError` (`Object.keys(null)` inside
`arrayOfObjectsToTable`). -/

inductive Json where
  | null
  | bool (b : Bool)
  | num (rendering : Str)
  | str (s : Str)
  | arr (elements : List Json)
  | obj (fields : List (Str × Json))

/-- JS `String(x)` for primitives and `null` (the only coercions the
renderer reaches: every structured value is dispatched to a structured
branch first, so the `arr`/`obj` cases are dead and render empty). -/
def jsString : Json → Str
  | .null => str "null"
  | .bool true => str "true"
  | .bool false => str "false"
  | .num rendering => rendering
  | .str s => s
  | .arr _ => []
  | .obj _ => []

/-- `replace(/^./, c => c.toUpperCase())`. -/
def upperFirst : Str → Str
  | [] => []
  | c :: cs => c.toUpper :: cs

/-- `formatKey` (`toon-vs-json.ts` lines 146-152): insert a space before
each ASCII capital, capitalise the first character, trim. -/
def formatKey (key : Str) : Str :=
  jsTrim (upperFirst (key.bind (fun c => if c.isUpper then [' ', c] else [c])))

/-- The canonical decimal strings `"0" … "n-1"` (JS own index keys). -/
def indexKeys (n : ℕ) : List Str := (List.range n).map natToDigits

/-- JS `Object.keys(x)`: throws (`none`) on `null`; own enumerable keys of
an object; index keys of an array or string; none for boxed primitives. -/
def jsKeys : Json → Option (List Str)
  | .null => none
  | .obj fields => some (fields.map (·.1))
  | .arr xs => some (indexKeys xs.length)
  | .str s => some (indexKeys s.length)
  | _ => some []

/-- JS property access `item[key]` (`undefined` = `none`). Access on `null`
would throw, but `arrayOfObjectsToTable` has already thrown during key
collection for any `null` item, so that branch is unreachable and mapped to
`undefined`. -/
def jsGet : Json → Str → Option Json
  | .obj fields, key => (fields.find? (fun p => decide (p.1 = key))).map (·.2)
  | .arr xs, key =>
    (List.range xs.length).findSome? (fun i => if natToDigits i = key then xs[i]? else none)
  | .str s, key =>
    (List.range s.length).findSome?
      (fun i => if natToDigits i = key then (s[i]?).map (fun c => Json.str [c]) else none)
  | _, _ => none

/-- `Set`-style key accumulation preserving first-seen order. -/
def addKeys (acc : List Str) (ks : List Str) : List Str :=
  ks.foldl (fun a k => if k ∈ a then a else a ++ [k]) acc

/-- The key-collection pass of `arrayOfObjectsToTable` (lines 160-165):
`items.forEach(item => Object.keys(item).forEach(add))`, throwing at the
first `null` item. -/
def keysUnion (items : List Json) : Option (List Str) :=
  items.foldlM (fun acc it => (jsKeys it).map (addKeys acc)) []

theorem sizeOf_lt_of_mem_json {v : Json} {l : List Json} (h : v ∈ l) :
    sizeOf v < sizeOf l :=
  List.sizeOf_lt_of_mem h

theorem sizeOf_jsGet_obj {item : Json} {key : Str} {fs : List (Str × Json)}
    (h : jsGet item key = some (.obj fs)) : sizeOf fs < sizeOf item := by
  cases item with
  | obj fields =>
    simp only [jsGet, Option.map_eq_some'] at h
    obtain ⟨p, hp, hv⟩ := h
    have hmem := List.mem_of_find?_eq_some hp
    have h1 : sizeOf p.2 < sizeOf fields := by
      have := List.sizeOf_lt_of_mem hmem
      cases p with
      | mk a b => simp at this ⊢; omega
    rw [hv] at h1
    simp at h1 ⊢
    omega
  | arr xs =>
    simp only [jsGet] at h
    obtain ⟨i, _, hv⟩ := List.exists_of_findSome?_eq_some h
    split at hv
    · have hmem := List.getElem?_mem hv
      have h1 := List.sizeOf_lt_of_mem hmem
      simp at h1 ⊢
      omega
    · simp at hv
  | str s =>
    simp only [jsGet] at h
    obtain ⟨i, _, hv⟩ := List.exists_of_findSome?_eq_some h
    split at hv <;> simp [Option.map_eq_some'] at hv
  | null => simp [jsGet] at h
  | bool b => simp [jsGet] at h
  | num r => simp [jsGet] at h

theorem sizeOf_jsGet_arr {item : Json} {key : Str} {xs : List Json}
    (h : jsGet item key = some (.arr xs)) : sizeOf xs < sizeOf item := by
  cases item with
  | obj fields =>
    simp only [jsGet, Option.map_eq_some'] at h
    obtain ⟨p, hp, hv⟩ := h
    have hmem := List.mem_of_find?_eq_some hp
    have h1 : sizeOf p.2 < sizeOf fields := by
      have := List.sizeOf_lt_of_mem hmem
      cases p with
      | mk a b => simp at this ⊢; omega
    rw [hv] at h1
    simp at h1 ⊢
    omega
  | arr ys =>
    simp only [jsGet] at h
    obtain ⟨i, _, hv⟩ := List.exists_of_findSome?_eq_some h
    split at hv
    · have hmem := List.getElem?_mem hv
      have h1 := List.sizeOf_lt_of_mem hmem
      simp at h1 ⊢
      omega
    · simp at hv
  | str s =>
    simp only [jsGet] at h
    obtain ⟨i, _, hv⟩ := List.exists_of_findSome?_eq_some h
    split at hv <;> simp [Option.map_eq_some'] at hv
  | null => simp [jsGet] at h
  | bool b => simp [jsGet] at h
  | num r => simp [jsGet] at h

mutual

/-- `jsonToMarkdown` (`toon-vs-json.ts` lines 80-144). -/
def jsonToMarkdown : Json → Option Str
  | .null => some (str "null")
  | .bool b => some (jsString (.bool b))
  | .num rendering => some (jsString (.num rendering))
  | .str s => some (jsString (.str s))
  | .arr [] => some []
  | .arr (Json.obj f0 :: rest) => arrayOfObjectsToTable (Json.obj f0 :: rest)
  | .arr (first :: rest) => bulletsRender (first :: rest)
  | .obj [] => some []
  | .obj (f :: fs) => (objParts (f :: fs)).map (joinWith (str "\n\n"))
termination_by j => (sizeOf j, 0)
decreasing_by all_goals (simp_wf; apply Prod.Lex.left; omega)

/-- `data.map(item => '- ' + jsonToMarkdown(item)).join('\n')` (lines 101
and 129). -/
def bulletsRender (items : List Json) : Option Str :=
  (jmEach items).map (fun ss => joinWith ['\n'] (ss.map (fun s => str "- " ++ s)))
termination_by (sizeOf items, 2)
decreasing_by all_goals (simp_wf; apply Prod.Lex.right; omega)

/-- `items.map(jsonToMarkdown)`, propagating a throw. -/
def jmEach : List Json → Option (List Str)
  | [] => some []
  | x :: xs => do
    let s ← jsonToMarkdown x
    let rest ← jmEach xs
    pure (s :: rest)
termination_by xs => (sizeOf xs, 1)
decreasing_by all_goals (simp_wf; apply Prod.Lex.left; omega)

/-- The per-key parts of the object branch (lines 113-138). -/
def objParts : List (Str × Json) → Option (List Str)
  | [] => some []
  | (key, value) :: fs => do
    let part ← objPart key value
    let rest ← objParts fs
    pure (part :: rest)
termination_by fs => (sizeOf fs, 1)
decreasing_by all_goals (simp_wf; apply Prod.Lex.left; omega)

/-- One `parts.push(…)` of the object branch (lines 115-138). -/
def objPart (key : Str) (value : Json) : Option Str :=
  match value with
  | .null => some (str "**" ++ formatKey key ++ str ":** " ++ str "null")
  | .arr [] => some (str "**" ++ formatKey key ++ str ":** (empty)")
  | .arr (Json.obj g0 :: vs) =>
    (arrayOfObjectsToTable (Json.obj g0 :: vs)).map
      (fun t => str "\n### " ++ formatKey key ++ str "\n\n" ++ t)
  | .arr (v0 :: vs) =>
    (bulletsRender (v0 :: vs)).map
      (fun l => str "\n**" ++ formatKey key ++ str ":**\n\n" ++ l)
  | .obj gs =>
    (jsonToMarkdown (.obj gs)).map
      (fun r => str "\n### " ++ formatKey key ++ str "\n\n" ++ r)
  | v => (jsonToMarkdown v).map (fun r => str "**" ++ formatKey key ++ str ":** " ++ r)
termination_by (sizeOf value, 3)
decreasing_by all_goals (simp_wf; first
  | (apply Prod.Lex.right; omega)
  | (apply Prod.Lex.left; omega))

/-- `arrayOfObjectsToTable` (`toon-vs-json.ts` lines 154-199). -/
def arrayOfObjectsToTable (items : List Json) : Option Str :=
  match items with
  | [] => some []
  | x :: xs => do
    let headers0 ← keysUnion (x :: xs)
    if headers0.isEmpty then pure []
    else do
      let headerRow := joinWith (str " | ") (headers0.map formatKey)
      let separatorRow := joinWith (str " | ") (headers0.map (fun _ => str "---"))
      let dataRows ← rowsRender headers0 (x :: xs)
      pure (str "| " ++ headerRow ++ str " |" ++ ['\n'] ++ str "| " ++ separatorRow ++
        str " |" ++ ['\n'] ++ joinWith ['\n'] (dataRows.map (fun row => str "| " ++ row ++ str " |")))
termination_by (sizeOf items, 4)
decreasing_by all_goals (simp_wf; apply Prod.Lex.right; omega)

/-- `items.map(item => headers.map(cell).join(' | '))` (lines 176-196). -/
def rowsRender (headers : List Str) : List Json → Option (List Str)
  | [] => some []
  | item :: rest => do
    let cells ← cellsForItem item headers
    let more ← rowsRender headers rest
    pure (joinWith (str " | ") cells :: more)
termination_by l => (sizeOf l, 3)
decreasing_by all_goals (simp_wf; apply Prod.Lex.left; omega)

/-- The cells of one row. -/
def cellsForItem (item : Json) : List Str → Option (List Str)
  | [] => some []
  | key :: keys => do
    let c ← cellValue item key
    let more ← cellsForItem item keys
    pure (c :: more)
termination_by keys => (sizeOf item, 2 + keys.length)
decreasing_by all_goals (simp_wf; apply Prod.Lex.right; omega)

/-- One table cell (lines 178-194): `''` for missing/`null`, a flattened
`key: value` comma list for a nested object, a comma-joined render for an
array, `String(value)` otherwise. -/
def cellValue (item : Json) (key : Str) : Option Str :=
  match h : jsGet item key with
  | none => some []
  | some .null => some []
  | some (.obj gs) => (entriesRender gs).map (joinWith (str ", "))
  | some (.arr xs) => (jmEach xs).map (joinWith (str ", "))
  | some v => some (jsString v)
termination_by (sizeOf item, 1)
decreasing_by all_goals (simp_wf; apply Prod.Lex.left; first
  | (exact sizeOf_jsGet_obj h)
  | (exact sizeOf_jsGet_arr h))

/-- `Object.entries(value).map(([k, v]) => formatKey(k) + ': ' +
jsonToMarkdown(v))` (lines 185-187). -/
def entriesRender : List (Str × Json) → Option (List Str)
  | [] => some []
  | (k, v) :: gs => do
    let r ← jsonToMarkdown v
    let rest ← entriesRender gs
    pure ((formatKey k ++ str ": " ++ r) :: rest)
termination_by gs => (sizeOf gs, 1)
decreasing_by all_goals (simp_wf; apply Prod.Lex.left; omega)

end

/-! ## Lemmas: string utilities -/

theorem hasPre_mem {p s : Str} (h : hasPre p s = true) {a : Char} (ha : a ∈ p) : a ∈ s := by
  induction p generalizing s with
  | nil => simp at ha
  | cons x xs ih =>
    cases s with
    | nil => simp [hasPre] at h
    | cons c cs =>
      simp only [hasPre, Bool.and_eq_true, decide_eq_true_eq] at h
      rcases List.mem_cons.mp ha with rfl | ha
      · simp [h.1]
      · exact List.mem_cons_of_mem _ (ih h.2 ha)

theorem containsSub_eq_false {needle s : Str} {a : Char} (ha : a ∈ needle) (hs : a ∉ s) :
    containsSub needle s = false := by
  induction s with
  | nil =>
    cases needle with
    | nil => simp at ha
    | cons x xs => simp [containsSub]
  | cons c cs ih =>
    simp only [containsSub, Bool.or_eq_false_iff]
    constructor
    · cases h : hasPre needle (c :: cs)
      · rfl
      · exact absurd (hasPre_mem h ha) hs
    · exact ih (fun hmem => hs (List.mem_cons_of_mem _ hmem))

theorem splitChar_ne_nil {sep : Char} {s : Str} : splitChar sep s ≠ [] := by
  cases s with
  | nil => simp [splitChar]
  | cons c cs =>
    simp only [splitChar]
    by_cases hc : c = sep <;> simp [hc]

theorem splitChar_not_mem {sep : Char} {xs : Str} (h : sep ∉ xs) : splitChar sep xs = [xs] := by
  induction xs with
  | nil => rfl
  | cons c cs ih =>
    have hc : c ≠ sep := fun e => h (by simp [e])
    have ih' := ih (fun hm => h (List.mem_cons_of_mem _ hm))
    simp [splitChar, ih', hc]

theorem splitChar_append_sep {sep : Char} {xs ys : Str} (h : sep ∉ xs) :
    splitChar sep (xs ++ sep :: ys) = xs :: splitChar sep ys := by
  induction xs with
  | nil =>
    simp only [List.nil_append, splitChar]
    rcases hsp : splitChar sep ys with _ | ⟨l, ls⟩
    · exact absurd hsp splitChar_ne_nil
    · simp
  | cons c cs ih =>
    have hc : c ≠ sep := fun e => h (by simp [e])
    have ih' := ih (fun hm => h (List.mem_cons_of_mem _ hm))
    simp only [List.cons_append, splitChar, List.append_eq]
    rw [ih']
    simp [hc]

theorem splitChar_joinWith {sep : Char} {L : List Str} (h : ∀ l ∈ L, sep ∉ l) :
    L ≠ [] → splitChar sep (joinWith [sep] L) = L := by
  induction L with
  | nil => intro hne; simp at hne
  | cons x xs ih =>
    intro _
    cases xs with
    | nil => exact splitChar_not_mem (h x (by simp))
    | cons y ys =>
      have step : joinWith [sep] (x :: y :: ys) = x ++ sep :: joinWith [sep] (y :: ys) := by
        simp [joinWith]
      rw [step, splitChar_append_sep (h x (by simp)),
        ih (fun l hl => h l (List.mem_cons_of_mem _ hl)) (by simp)]

theorem dropWhile_cons_false {p : Char → Bool} {c : Char} {s : Str} (h : p c = false) :
    (c :: s).dropWhile p = c :: s := by
  simp [List.dropWhile, h]

theorem dropWhile_all {p : Char → Bool} {s : Str} (h : ∀ c ∈ s, p c = false) :
    s.dropWhile p = s := by
  cases s with
  | nil => rfl
  | cons c cs => exact dropWhile_cons_false (h c (by simp))

theorem takeWhile_all {p : Char → Bool} {s : Str} (h : ∀ c ∈ s, p c = true) :
    s.takeWhile p = s := by
  induction s with
  | nil => rfl
  | cons c cs ih =>
    simp only [List.takeWhile_cons, h c (by simp), if_true]
    rw [ih (fun x hx => h x (List.mem_cons_of_mem _ hx))]

theorem takeWhile_append_cons_false {p : Char → Bool} {xs : Str} {y : Char} {ys : Str}
    (h : ∀ c ∈ xs, p c = true) (hy : p y = false) :
    (xs ++ y :: ys).takeWhile p = xs := by
  induction xs with
  | nil => simp [List.takeWhile_cons, hy]
  | cons c cs ih =>
    simp only [List.cons_append, List.takeWhile_cons, h c (by simp), if_true]
    rw [ih (fun x hx => h x (List.mem_cons_of_mem _ hx))]

theorem jsTrim_all_not_ws {s : Str} (h : ∀ c ∈ s, jsWs c = false) : jsTrim s = s := by
  unfold jsTrim
  rw [dropWhile_all h, dropWhile_all (fun c hc => h c (List.mem_reverse.mp hc)), List.reverse_reverse]

theorem jsTrim_sandwich {s : Str} (h : ∀ c ∈ s, jsWs c = false) (hne : s ≠ []) (a b : ℕ) :
    jsTrim (List.replicate a ' ' ++ s ++ List.replicate b ' ') = s := by
  have hdrop : ∀ (n : ℕ) (t : Str), (List.replicate n ' ' ++ t).dropWhile jsWs = t.dropWhile jsWs := by
    intro n
    induction n with
    | zero => intro t; simp
    | succ k ih =>
      intro t
      simpa [List.replicate_succ, List.dropWhile, jsWs] using ih t
  unfold jsTrim
  obtain ⟨c, cs, rfl⟩ : ∃ c cs, s = c :: cs := by
    cases s with
    | nil => exact absurd rfl hne
    | cons c cs => exact ⟨c, cs, rfl⟩
  rw [List.append_assoc, hdrop, List.cons_append,
    dropWhile_cons_false (h c (by simp)), ← List.cons_append]
  have hrev : ((c :: cs) ++ List.replicate b ' ').reverse =
      List.replicate b ' ' ++ (c :: cs).reverse := by
    simp
  rw [hrev, hdrop]
  obtain ⟨d, ds, hds⟩ : ∃ d ds, (c :: cs).reverse = d :: ds := by
    rcases hr : (c :: cs).reverse with _ | ⟨d, ds⟩
    · exact absurd hr (by simp)
    · exact ⟨d, ds, rfl⟩
  have hd : jsWs d = false := h d (by
    have : d ∈ (c :: cs).reverse := by rw [hds]; simp
    exact List.mem_reverse.mp this)
  rw [hds, dropWhile_cons_false hd, ← hds, List.reverse_reverse]

/-! ## Lemmas: digit rendering and number parsing -/

theorem digitChar_isDigit {d : ℕ} (h : d < 10) : (digitChar d).isDigit = true := by
  interval_cases d <;> decide

theorem digitVal_digitChar {d : ℕ} (h : d < 10) : digitVal (digitChar d) = d := by
  interval_cases d <;> decide

theorem natToDigits_ne_nil {n : ℕ} : natToDigits n ≠ [] := by
  rw [natToDigits]; split <;> simp

theorem natToDigits_all_digits {n : ℕ} : ∀ c ∈ natToDigits n, c.isDigit = true := by
  induction n using Nat.strong_induction_on with
  | _ n ih =>
    rw [natToDigits]
    split
    · rename_i h
      intro c hc
      simp only [List.mem_singleton] at hc
      subst hc
      exact digitChar_isDigit h
    · rename_i h
      intro c hc
      rcases List.mem_append.mp hc with h1 | h2
      · exact ih (n / 10) (Nat.div_lt_self (by omega) (by omega)) c h1
      · simp only [List.mem_singleton] at h2
        subst h2
        exact digitChar_isDigit (Nat.mod_lt _ (by omega))

theorem digitsVal_append_one {xs : Str} {c : Char} :
    digitsVal (xs ++ [c]) = 10 * digitsVal xs + digitVal c := by
  simp [digitsVal, List.foldl_append]

theorem digitsVal_natToDigits {n : ℕ} : digitsVal (natToDigits n) = n := by
  induction n using Nat.strong_induction_on with
  | _ n ih =>
    rw [natToDigits]
    split
    · rename_i h
      simp only [digitsVal, List.foldl_cons, List.foldl_nil]
      rw [Nat.mul_zero, Nat.zero_add, digitVal_digitChar h]
    · rename_i h
      rw [digitsVal_append_one, ih (n / 10) (Nat.div_lt_self (by omega) (by omega)),
        digitVal_digitChar (Nat.mod_lt _ (by omega))]
      omega

/-- A digit character is none of the separator characters the parsers key on. -/
theorem isDigit_facts {c : Char} (h : c.isDigit = true) :
    jsWs c = false ∧ c ≠ '|' ∧ c ≠ ',' ∧ c ≠ '.' ∧ c ≠ '\n' ∧ c ≠ '-' ∧ c ≠ '+' ∧
      c ≠ 'm' ∧ c ≠ '=' := by
  simp only [Char.isDigit] at h
  have h48 : 48 ≤ c.toNat := by
    rcases Bool.and_eq_true_iff.mp h with ⟨h1, _⟩
    simpa [Char.le_def] using h1
  have h57 : c.toNat ≤ 57 := by
    rcases Bool.and_eq_true_iff.mp h with ⟨_, h2⟩
    simpa [Char.le_def] using h2
  have hne : ∀ a : Char, c.toNat ≠ a.toNat → c ≠ a := by
    intro a hna e
    exact hna (by rw [e])
  refine ⟨?_, ?_, ?_, ?_, ?_, ?_, ?_, ?_, ?_⟩
  · simp only [jsWs, Bool.or_eq_false_iff, decide_eq_false_iff_not]
    refine ⟨⟨⟨?_, ?_⟩, ?_⟩, ?_⟩ <;> (intro e; rw [e] at h48 h57; simp at h48 h57)
  · apply hne
    have : ('|').toNat = 124 := by decide
    omega
  · apply hne
    have : (',').toNat = 44 := by decide
    omega
  · apply hne
    have : ('.').toNat = 46 := by decide
    omega
  · apply hne
    have : ('\n').toNat = 10 := by decide
    omega
  · apply hne
    have : ('-').toNat = 45 := by decide
    omega
  · apply hne
    have : ('+').toNat = 43 := by decide
    omega
  · apply hne
    have : ('m').toNat = 109 := by decide
    omega
  · apply hne
    have : ('=').toNat = 61 := by decide
    omega

theorem mem_group3 {c : Char} : ∀ {ds : Str}, c ∈ group3 ds → c ∈ ds ∨ c = ',' := by
  intro ds
  induction ds using group3.induct with
  | case1 ds h =>
    rw [group3]
    simp only [h, dif_pos]
    exact fun hm => Or.inl hm
  | case2 ds h ih =>
    rw [group3]
    simp only [h, dif_neg, not_false_iff]
    intro hm
    rcases List.mem_append.mp hm with h1 | h2
    · exact Or.inl (List.mem_of_mem_take h1)
    · rcases List.mem_cons.mp h2 with rfl | h3
      · exact Or.inr rfl
      · rcases ih h3 with h4 | h4
        · exact Or.inl (List.mem_of_mem_drop h4)
        · exact Or.inr h4

theorem filter_ne_comma_of_not_mem {xs : Str} (h : ',' ∉ xs) :
    xs.filter (fun c => decide (c ≠ ',')) = xs := by
  apply List.filter_eq_self.mpr
  intro a ha
  simp only [decide_eq_true_eq]
  exact fun e => h (e ▸ ha)

theorem filter_group3 {ds : Str} (h : ',' ∉ ds) :
    (group3 ds).filter (fun c => decide (c ≠ ',')) = ds := by
  induction ds using group3.induct with
  | case1 ds hle =>
    rw [group3]
    simp only [hle, dif_pos]
    exact filter_ne_comma_of_not_mem h
  | case2 ds hle ih =>
    rw [group3]
    simp only [hle, dif_neg, not_false_iff]
    rw [List.filter_append]
    rw [filter_ne_comma_of_not_mem (fun hm => h (List.mem_of_mem_take hm))]
    simp only [List.filter_cons, decide_eq_true_eq]
    rw [if_neg (by simp)]
    rw [ih (fun hm => h (List.mem_of_mem_drop hm))]
    exact List.take_append_drop 3 ds

theorem jsParseInt_digits {s : Str} (hne : s ≠ []) (hd : ∀ c ∈ s, c.isDigit = true) :
    jsParseInt s = some (digitsVal s) := by
  obtain ⟨c, cs, rfl⟩ : ∃ c cs, s = c :: cs := by
    cases s with
    | nil => exact absurd rfl hne
    | cons c cs => exact ⟨c, cs, rfl⟩
  have hc := hd c (by simp)
  have hfacts := isDigit_facts hc
  unfold jsParseInt
  rw [dropWhile_cons_false hfacts.1]
  have hm : c ≠ '-' := hfacts.2.2.2.2.2.1
  have hp : c ≠ '+' := hfacts.2.2.2.2.2.2.1
  split
  · rename_i heq
    exact absurd (List.head_eq_of_cons_eq heq) hm
  · rename_i heq
    exact absurd (List.head_eq_of_cons_eq heq) hp
  · unfold jsParseIntCore
    rw [takeWhile_all hd]
    simp

/-- `parseNumber`, applied to the en-US integer rendering, recovers the
integer exactly: this is the thousands-separator stripping of the claim. -/
theorem parseNumber_toLocaleStringNat (n : ℕ) :
    parseNumber (toLocaleStringNat n) = some (n : ℤ) := by
  unfold parseNumber toLocaleStringNat
  rw [List.filter_reverse, filter_group3 (by
    intro hm
    have := natToDigits_all_digits _ (List.mem_reverse.mp hm)
    exact absurd this (by decide)), List.reverse_reverse]
  rw [jsParseInt_digits natToDigits_ne_nil natToDigits_all_digits, digitsVal_natToDigits]
  rfl

theorem padDigits_one (m : ℕ) : padDigits 1 m = [digitChar (m % 10)] := rfl

theorem jsToFixedAbs_one (q : ℚ) :
    jsToFixedAbs 1 q = natToDigits ((⌊q * 10 + 1 / 2⌋).toNat / 10) ++
      ['.', digitChar ((⌊q * 10 + 1 / 2⌋).toNat % 10)] := by
  unfold jsToFixedAbs
  norm_num [padDigits_one]

theorem jsToFixedAbs_one_chars {q : ℚ} {c : Char} (h : c ∈ jsToFixedAbs 1 q) :
    digitDot c = true := by
  rw [jsToFixedAbs_one] at h
  rcases List.mem_append.mp h with h1 | h2
  · simp [digitDot, natToDigits_all_digits _ h1]
  · rcases List.mem_cons.mp h2 with rfl | h3
    · simp [digitDot]
    · simp only [List.mem_singleton] at h3
      subst h3
      simp [digitDot, digitChar_isDigit (Nat.mod_lt _ (by omega))]

theorem jsParseFloat_fixedAbs_one (q : ℚ) :
    jsParseFloat (jsToFixedAbs 1 q) = some (round1 q) := by
  rw [jsToFixedAbs_one]
  set n : ℕ := (⌊q * 10 + 1 / 2⌋).toNat with hn
  obtain ⟨c, cs, hcons⟩ : ∃ c cs, natToDigits (n / 10) = c :: cs := by
    rcases h : natToDigits (n / 10) with _ | ⟨c, cs⟩
    · exact absurd h natToDigits_ne_nil
    · exact ⟨c, cs, rfl⟩
  have hdig : ∀ x ∈ natToDigits (n / 10), x.isDigit = true := natToDigits_all_digits
  have hc : c.isDigit = true := hdig c (by rw [hcons]; simp)
  have hfacts := isDigit_facts hc
  unfold jsParseFloat
  rw [hcons, List.cons_append, dropWhile_cons_false hfacts.1, ← List.cons_append, ← hcons]
  split
  · rename_i heq
    rw [hcons] at heq
    exact absurd (List.head_eq_of_cons_eq (by simpa using heq)) hfacts.2.2.2.2.2.1
  · rename_i heq
    rw [hcons] at heq
    exact absurd (List.head_eq_of_cons_eq (by simpa using heq)) hfacts.2.2.2.2.2.2.1
  · unfold jsParseFloatCore
    dsimp only
    rw [takeWhile_append_cons_false hdig (by decide)]
    rw [List.drop_left]
    norm_num
    constructor
    · intro _
      exact digitChar_isDigit (Nat.mod_lt _ (by omega))
    · have hfs : List.takeWhile Char.isDigit [digitChar (n % 10)] = [digitChar (n % 10)] :=
        takeWhile_all (by
          intro x hx
          simp only [List.mem_singleton] at hx
          subst hx
          exact digitChar_isDigit (Nat.mod_lt _ (by omega)))
      rw [hfs]
      have hdv : digitsVal [digitChar (n % 10)] = n % 10 := by
        simp only [digitsVal, List.foldl_cons, List.foldl_nil]
        rw [Nat.mul_zero, Nat.zero_add, digitVal_digitChar (Nat.mod_lt _ (by omega))]
      rw [digitsVal_natToDigits, hdv]
      rw [round1, ← hn]
      have hsplit : (n : ℚ) = ((10 * (n / 10) + n % 10 : ℕ) : ℚ) := by
        congr 1
        omega
      rw [hsplit]
      push_cast
      simp only [List.length_singleton, pow_one]
      ring

theorem msSearch_fixed (F : Str) (hne : F ≠ []) (hF : ∀ c ∈ F, digitDot c = true) :
    msSearch (F ++ str "ms") = some F := by
  obtain ⟨c, cs, rfl⟩ : ∃ c cs, F = c :: cs := by
    cases F with
    | nil => exact absurd rfl hne
    | cons c cs => exact ⟨c, cs, rfl⟩
  rw [List.cons_append]
  unfold msSearch
  have hrun : List.takeWhile digitDot ((c :: cs) ++ str "ms") = c :: cs :=
    takeWhile_append_cons_false hF (by decide)
  rw [show c :: (cs ++ str "ms") = (c :: cs) ++ str "ms" from rfl]
  unfold msMatchAt
  rw [hrun]
  have hlen : (c :: cs).length = cs.length + 1 := by simp
  rw [hlen]
  unfold msTryLens
  rw [← hlen]
  rw [show ((c :: cs) ++ str "ms").drop (c :: cs).length = str "ms" from List.drop_left _ _]
  rw [show hasPre (str "ms") (str "ms") = true from by decide]
  simp only [if_true]
  rw [show ((c :: cs) ++ str "ms").take (c :: cs).length = c :: cs from List.take_left _ _]

/-- Parsing the `'<number>ms'` cell produced by `formatMs` recovers the
duration rounded to one decimal digit. -/
theorem parseMs_formatMs {q : ℚ} (h : 0 ≤ q) : parseMs (formatMs q) = some (round1 q) := by
  unfold formatMs jsToFixed
  rw [if_neg (by exact not_lt.mpr h)]
  unfold parseMs
  rw [msSearch_fixed _ (by
      rw [jsToFixedAbs_one]
      simp [natToDigits_ne_nil])
    (fun c hc => jsToFixedAbs_one_chars hc)]
  exact jsParseFloat_fixedAbs_one q

/-! ## Lemmas: character classes of rendered fragments -/

theorem clean_of_isDigit {c : Char} (h : c.isDigit = true) : c ≠ '|' ∧ jsWs c = false :=
  ⟨(isDigit_facts h).2.1, (isDigit_facts h).1⟩

theorem cell_clean_toLocaleStringNat {n : ℕ} : ∀ c ∈ toLocaleStringNat n,
    c ≠ '|' ∧ jsWs c = false := by
  intro c hc
  unfold toLocaleStringNat at hc
  rcases mem_group3 (List.mem_reverse.mp hc) with h | rfl
  · exact clean_of_isDigit (natToDigits_all_digits _ (List.mem_reverse.mp h))
  · exact ⟨by decide, by decide⟩

theorem cell_clean_toLocaleStringQ {q : ℚ} : ∀ c ∈ toLocaleStringQ q,
    c ≠ '|' ∧ jsWs c = false := by
  intro c hc
  unfold toLocaleStringQ at hc
  split at hc
  · rcases List.mem_cons.mp hc with rfl | h
    · exact ⟨by decide, by decide⟩
    · exact cell_clean_toLocaleStringNat c h
  · exact cell_clean_toLocaleStringNat c hc

theorem mem_padDigits {k m : ℕ} {c : Char} (h : c ∈ padDigits k m) : c.isDigit = true := by
  induction k generalizing m with
  | zero => simp [padDigits] at h
  | succ j ih =>
    simp only [padDigits] at h
    rcases List.mem_append.mp h with h1 | h2
    · exact ih h1
    · simp only [List.mem_singleton] at h2
      subst h2
      exact digitChar_isDigit (Nat.mod_lt _ (by omega))

theorem mem_jsToFixedAbs {k : ℕ} {q : ℚ} {c : Char} (h : c ∈ jsToFixedAbs k q) :
    c.isDigit = true ∨ c = '.' := by
  unfold jsToFixedAbs at h
  split at h
  · exact Or.inl (natToDigits_all_digits _ h)
  · rcases List.mem_append.mp h with h1 | h2
    · exact Or.inl (natToDigits_all_digits _ h1)
    · rcases List.mem_cons.mp h2 with rfl | h3
      · exact Or.inr rfl
      · exact Or.inl (mem_padDigits h3)

theorem cell_clean_formatMs {q : ℚ} : ∀ c ∈ formatMs q, c ≠ '|' ∧ jsWs c = false := by
  intro c hc
  unfold formatMs at hc
  rcases List.mem_append.mp hc with h1 | h2
  · unfold jsToFixed at h1
    split at h1
    · rcases List.mem_cons.mp h1 with rfl | h3
      · exact ⟨by decide, by decide⟩
      · rcases mem_jsToFixedAbs h3 with hd | rfl
        · exact clean_of_isDigit hd
        · exact ⟨by decide, by decide⟩
    · rcases mem_jsToFixedAbs h1 with hd | rfl
      · exact clean_of_isDigit hd
      · exact ⟨by decide, by decide⟩
  · have hms : str "ms" = ['m', 's'] := rfl
    rw [hms] at h2
    rcases List.mem_cons.mp h2 with rfl | h3
    · exact ⟨by decide, by decide⟩
    · rcases List.mem_cons.mp h3 with rfl | h4
      · exact ⟨by decide, by decide⟩
      · simp at h4

theorem group3_ne_nil {ds : Str} (h : ds ≠ []) : group3 ds ≠ [] := by
  rw [group3]
  split
  · exact h
  · simp

theorem toLocaleStringNat_ne_nil {n : ℕ} : toLocaleStringNat n ≠ [] := by
  unfold toLocaleStringNat
  simp only [ne_eq, List.reverse_eq_nil_iff]
  exact group3_ne_nil (by
    simp only [ne_eq, List.reverse_eq_nil_iff]
    exact natToDigits_ne_nil)

theorem toLocaleStringQ_ne_nil {q : ℚ} : toLocaleStringQ q ≠ [] := by
  unfold toLocaleStringQ
  split
  · exact List.cons_ne_nil _ _
  · exact toLocaleStringNat_ne_nil

theorem formatMs_ne_nil {q : ℚ} : formatMs q ≠ [] := by
  unfold formatMs jsToFixed
  split <;> simp [str]

theorem fastestByLatency_cases (a b c : ℚ) :
    fastestByLatency a b c = str "JSON" ∨ fastestByLatency a b c = str "TOON" ∨
      fastestByLatency a b c = str "MARKDOWN" := by
  unfold fastestByLatency
  dsimp only
  rcases hs : List.insertionSort (fun x y : Str × ℚ => x.2 ≤ y.2)
      [(str "JSON", a), (str "TOON", b), (str "MARKDOWN", c)] with _ | ⟨p, ps⟩
  · exact Or.inl rfl
  · have hp : p ∈ [(str "JSON", a), (str "TOON", b), (str "MARKDOWN", c)] := by
      have hperm := List.perm_insertionSort (fun x y : Str × ℚ => x.2 ≤ y.2)
        [(str "JSON", a), (str "TOON", b), (str "MARKDOWN", c)]
      exact hperm.mem_iff.mp (by rw [hs]; simp)
    simp only [List.mem_cons, List.mem_singleton, List.not_mem_nil] at hp
    rcases hp with rfl | rfl | rfl | h
    · exact Or.inl rfl
    · exact Or.inr (Or.inl rfl)
    · exact Or.inr (Or.inr rfl)
    · simp at h

theorem line_clean_fastest {jm tm mm : FormatMetrics} :
    ∀ c ∈ getFastestFormat jm tm mm, c ≠ '|' ∧ jsWs c = false := by
  intro c hc
  unfold getFastestFormat at hc
  rcases fastestByLatency_cases jm.apiLatencyMs tm.apiLatencyMs mm.apiLatencyMs with h | h | h <;>
    (rw [h] at hc; revert c; decide)

/-! ## Lemmas: table row split round trip -/

/-- Splitting `' ' :: cell ++ ' | ' ++ …` (the tail of a joined row) on `|`,
trimming and filtering recovers the remaining cells. -/
theorem parseTableRow_tail {cells : List Str}
    (h : ∀ cl ∈ cells, cl ≠ [] ∧ ∀ ch ∈ cl, ch ≠ '|' ∧ jsWs ch = false) :
    cells ≠ [] →
    ((splitChar '|' (' ' :: joinWith (str " | ") cells)).map jsTrim).filter
      (fun p => !p.isEmpty) = cells := by
  induction cells with
  | nil => intro hne; exact absurd rfl hne
  | cons cl rest ih =>
    intro _
    obtain ⟨hcne, hccl⟩ := h cl (by simp)
    cases rest with
    | nil =>
      rw [show joinWith (str " | ") [cl] = cl from rfl]
      rw [splitChar_not_mem (by
        intro hm
        rcases List.mem_cons.mp hm with e | hm2
        · exact absurd e.symm (by decide)
        · exact (hccl _ hm2).1 rfl)]
      have htrim : jsTrim (' ' :: cl) = cl := by
        have := jsTrim_sandwich (fun c hc => (hccl c hc).2) hcne 1 0
        simpa using this
      simp [htrim, hcne]
    | cons cl2 rest2 =>
      have hjoin : joinWith (str " | ") (cl :: cl2 :: rest2) =
          cl ++ str " | " ++ joinWith (str " | ") (cl2 :: rest2) := by
        simp [joinWith]
      rw [hjoin]
      have hshape : ' ' :: (cl ++ str " | " ++ joinWith (str " | ") (cl2 :: rest2)) =
          ((' ' :: cl) ++ [' ']) ++ '|' :: (' ' :: joinWith (str " | ") (cl2 :: rest2)) := by
        simp [str]
      rw [hshape, splitChar_append_sep (by
        intro hm
        rcases List.mem_append.mp hm with h1 | h2
        · rcases List.mem_cons.mp h1 with e | hm2
          · exact absurd e.symm (by decide)
          · exact (hccl _ hm2).1 rfl
        · simp at h2)]
      have htrim : jsTrim ((' ' :: cl) ++ [' ']) = cl := by
        have := jsTrim_sandwich (fun c hc => (hccl c hc).2) hcne 1 1
        simpa using this
      simp only [List.map_cons, List.filter_cons, htrim]
      rw [if_pos (by simpa using hcne)]
      rw [ih (fun x hx => h x (List.mem_cons_of_mem _ hx)) (by simp)]

/-- `parseTableRow` applied to a `' | '`-joined row of clean cells recovers
exactly the cells. -/
theorem parseTableRow_join {cells : List Str} (hne : cells ≠ [])
    (h : ∀ cl ∈ cells, cl ≠ [] ∧ ∀ ch ∈ cl, ch ≠ '|' ∧ jsWs ch = false) :
    parseTableRow (joinWith (str " | ") cells) = cells := by
  unfold parseTableRow
  obtain ⟨cl, rest, rfl⟩ : ∃ cl rest, cells = cl :: rest := by
    cases cells with
    | nil => exact absurd rfl hne
    | cons cl rest => exact ⟨cl, rest, rfl⟩
  obtain ⟨hcne, hccl⟩ := h cl (by simp)
  cases rest with
  | nil =>
    rw [show joinWith (str " | ") [cl] = cl from rfl]
    rw [splitChar_not_mem (fun hm => (hccl _ hm).1 rfl)]
    have htrim : jsTrim cl = cl := jsTrim_all_not_ws (fun c hc => (hccl c hc).2)
    simp [htrim, hcne]
  | cons cl2 rest2 =>
    have hjoin : joinWith (str " | ") (cl :: cl2 :: rest2) =
        cl ++ str " | " ++ joinWith (str " | ") (cl2 :: rest2) := by
      simp [joinWith]
    rw [hjoin]
    have hshape : cl ++ str " | " ++ joinWith (str " | ") (cl2 :: rest2) =
        (cl ++ [' ']) ++ '|' :: (' ' :: joinWith (str " | ") (cl2 :: rest2)) := by
      simp [str]
    rw [hshape, splitChar_append_sep (by
      intro hm
      rcases List.mem_append.mp hm with h1 | h2
      · exact (hccl _ h1).1 rfl
      · simp at h2)]
    have htrim : jsTrim (cl ++ [' ']) = cl := by
      have := jsTrim_sandwich (fun c hc => (hccl c hc).2) hcne 0 1
      simpa using this
    simp only [List.map_cons, List.filter_cons, htrim]
    rw [if_pos (by simpa using hcne)]
    rw [parseTableRow_tail (fun x hx => h x (List.mem_cons_of_mem _ hx)) (by simp)]

/-! ## Lemmas: the table-extraction walk -/

theorem containsSub_singleton_iff {a : Char} {s : Str} : containsSub [a] s = true ↔ a ∈ s := by
  induction s with
  | nil => simp [containsSub, List.isEmpty]
  | cons c cs ih =>
    simp only [containsSub, Bool.or_eq_true, List.mem_cons]
    constructor
    · intro h
      rcases h with h | h
      · simp only [hasPre, Bool.and_eq_true, decide_eq_true_eq] at h
        exact Or.inl h.1
      · exact Or.inr (ih.mp h)
    · intro h
      rcases h with rfl | h
      · left
        simp [hasPre]
      · exact Or.inr (ih.mpr h)

theorem mem_joinWith {sep : Str} {cells : List Str} {c : Char} (h : c ∈ joinWith sep cells) :
    (∃ cl ∈ cells, c ∈ cl) ∨ c ∈ sep := by
  induction cells with
  | nil => simp [joinWith] at h
  | cons cl rest ih =>
    cases rest with
    | nil =>
      rw [show joinWith sep [cl] = cl from rfl] at h
      exact Or.inl ⟨cl, by simp, h⟩
    | cons cl2 rest2 =>
      rw [show joinWith sep (cl :: cl2 :: rest2) = cl ++ sep ++ joinWith sep (cl2 :: rest2)
        from by simp [joinWith]] at h
      rcases List.mem_append.mp h with h1 | h2
      · rcases List.mem_append.mp h1 with h3 | h4
        · exact Or.inl ⟨cl, by simp, h3⟩
        · exact Or.inr h4
      · rcases ih h2 with ⟨x, hx, hcx⟩ | h3
        · exact Or.inl ⟨x, List.mem_cons_of_mem _ hx, hcx⟩
        · exact Or.inr h3

/-- Outside the table, a line without the header marker is skipped. -/
theorem extract_skip_out {line : Str} {rest : List Str} {fmts : List ParsedFormatMetrics}
    (h : containsSub (str "Format | Input tokens sent") line = false) :
    extractTableFormats (line :: rest) false fmts = extractTableFormats rest false fmts := by
  conv_lhs => rw [extractTableFormats]
  simp [h]

/-- A block of pipe-free lines before the header is skipped entirely. -/
theorem extract_skip_block {pre rest : List Str} {fmts : List ParsedFormatMetrics}
    (h : ∀ l ∈ pre, '|' ∉ l) :
    extractTableFormats (pre ++ rest) false fmts = extractTableFormats rest false fmts := by
  induction pre with
  | nil => rfl
  | cons l ls ih =>
    rw [List.cons_append, extract_skip_out
      (containsSub_eq_false (show '|' ∈ str "Format | Input tokens sent" from by decide)
        (h l (by simp)))]
    exact ih (fun x hx => h x (List.mem_cons_of_mem _ hx))

/-- The header marker line switches into table mode. -/
theorem extract_header {line : Str} {rest : List Str} {inTable : Bool}
    {fmts : List ParsedFormatMetrics}
    (h : containsSub (str "Format | Input tokens sent") line = true) :
    extractTableFormats (line :: rest) inTable fmts = extractTableFormats rest true fmts := by
  conv_lhs => rw [extractTableFormats]
  simp [h]

/-- The `--- | …` separator row is skipped (its first cell is `---`). -/
theorem extract_sep_row {rest : List Str} {fmts : List ParsedFormatMetrics} :
    extractTableFormats (str "--- | --- | --- | --- | --- | ---" :: rest) true fmts =
      extractTableFormats rest true fmts := by
  conv_lhs => rw [extractTableFormats]
  have hrow : parseTableRow (str "--- | --- | --- | --- | --- | ---") =
      [str "---", str "---", str "---", str "---", str "---", str "---"] := by decide
  simp [hrow,
    show containsSub (str "Format | Input tokens sent")
      (str "--- | --- | --- | --- | --- | ---") = false from by decide,
    show containsSub (str "|") (str "--- | --- | --- | --- | --- | ---") = true from by decide,
    show hasPre (str "##") (str "--- | --- | --- | --- | --- | ---") = false from by decide]

/-- A blank line inside the table neither adds a row nor breaks. -/
theorem extract_blank_in_table {rest : List Str} {fmts : List ParsedFormatMetrics} :
    extractTableFormats ([] :: rest) true fmts = extractTableFormats rest true fmts := by
  conv_lhs => rw [extractTableFormats]
  simp [show containsSub (str "Format | Input tokens sent") [] = false from by decide,
    show containsSub (str "|") [] = false from by decide,
    show hasPre (str "##") [] = false from by decide]

/-- The `## Response Highlights` heading stops the table scan. -/
theorem extract_break {rest : List Str} {fmts : List ParsedFormatMetrics} :
    extractTableFormats (str "## Response Highlights" :: rest) true fmts = fmts := by
  conv_lhs => rw [extractTableFormats]
  simp [show containsSub (str "Format | Input tokens sent")
      (str "## Response Highlights") = false from by decide,
    show containsSub (str "|") (str "## Response Highlights") = false from by decide,
    show hasPre (str "##") (str "## Response Highlights") = true from by decide]

/-- A joined data row whose first cell is a format tag is parsed and
appended. -/
theorem extract_data_row {tag c2 c3 c4 c5 c6 : Str} {rest : List Str}
    {fmts : List ParsedFormatMetrics}
    (hclean : ∀ cl ∈ [tag, c2, c3, c4, c5, c6], cl ≠ [] ∧ ∀ ch ∈ cl, ch ≠ '|' ∧ jsWs ch = false)
    (hF : ∀ cl ∈ [tag, c2, c3, c4, c5, c6], 'F' ∉ cl)
    (htag1 : tag ≠ str "Format") (htag2 : tag ≠ str "---")
    (hhead : ∃ d ds, tag = d :: ds ∧ d ≠ '#') :
    extractTableFormats (joinWith (str " | ") [tag, c2, c3, c4, c5, c6] :: rest) true fmts =
      extractTableFormats rest true (fmts ++ [rowToMetrics tag c2 c3 c4 c5 c6]) := by
  have hFline : 'F' ∉ joinWith (str " | ") [tag, c2, c3, c4, c5, c6] := by
    intro hm
    rcases mem_joinWith hm with ⟨cl, hcl, hc⟩ | hsep
    · exact hF cl hcl hc
    · exact absurd hsep (by decide)
  have hnomarker : containsSub (str "Format | Input tokens sent")
      (joinWith (str " | ") [tag, c2, c3, c4, c5, c6]) = false :=
    containsSub_eq_false (show 'F' ∈ str "Format | Input tokens sent" from by decide) hFline
  have hpipe : containsSub (str "|") (joinWith (str " | ") [tag, c2, c3, c4, c5, c6]) = true := by
    rw [show (str "|") = ['|'] from rfl, containsSub_singleton_iff]
    rw [show joinWith (str " | ") (tag :: c2 :: c3 :: c4 :: c5 :: c6 :: []) =
      tag ++ str " | " ++ joinWith (str " | ") (c2 :: c3 :: c4 :: c5 :: c6 :: [])
      from by simp [joinWith]]
    simp [str]
  have hrow := @parseTableRow_join [tag, c2, c3, c4, c5, c6] (by simp) hclean
  obtain ⟨d, ds, htag, hd⟩ := hhead
  have hnohash : hasPre (str "##") (joinWith (str " | ") [tag, c2, c3, c4, c5, c6]) = false := by
    rw [show joinWith (str " | ") (tag :: c2 :: c3 :: c4 :: c5 :: c6 :: []) =
      tag ++ str " | " ++ joinWith (str " | ") (c2 :: c3 :: c4 :: c5 :: c6 :: [])
      from by simp [joinWith]]
    rw [htag]
    simp only [List.cons_append, List.append_assoc]
    show hasPre ('#' :: str "#") (d :: _) = false
    simp [hasPre]
    exact fun e => absurd e.symm hd
  conv_lhs => rw [extractTableFormats]
  simp [hnomarker, hpipe, hrow, hnohash, htag1, htag2]

theorem isDigit_ne_F {c : Char} (h : c.isDigit = true) : c ≠ 'F' := by
  intro e
  subst e
  exact absurd h (by decide)

theorem ne_nl_of_ws_false {c : Char} (h : jsWs c = false) : c ≠ '\n' := by
  intro e
  subst e
  exact absurd h (by decide)

theorem clean_jsToFixed {k : ℕ} {q : ℚ} : ∀ c ∈ jsToFixed k q, c ≠ '|' ∧ jsWs c = false := by
  intro c hc
  unfold jsToFixed at hc
  split at hc
  · rcases List.mem_cons.mp hc with rfl | h3
    · exact ⟨by decide, by decide⟩
    · rcases mem_jsToFixedAbs h3 with hd | rfl
      · exact clean_of_isDigit hd
      · exact ⟨by decide, by decide⟩
  · rcases mem_jsToFixedAbs hc with hd | rfl
    · exact clean_of_isDigit hd
    · exact ⟨by decide, by decide⟩

theorem F_not_mem_toLocaleStringNat {n : ℕ} : 'F' ∉ toLocaleStringNat n := by
  intro hm
  unfold toLocaleStringNat at hm
  rcases mem_group3 (List.mem_reverse.mp hm) with h | h
  · exact isDigit_ne_F (natToDigits_all_digits _ (List.mem_reverse.mp h)) rfl
  · exact absurd h (by decide)

theorem F_not_mem_toLocaleStringQ {q : ℚ} : 'F' ∉ toLocaleStringQ q := by
  intro hm
  unfold toLocaleStringQ at hm
  split at hm
  · rcases List.mem_cons.mp hm with e | h
    · exact absurd e (by decide)
    · exact F_not_mem_toLocaleStringNat h
  · exact F_not_mem_toLocaleStringNat hm

theorem F_not_mem_formatMs {q : ℚ} : 'F' ∉ formatMs q := by
  intro hm
  unfold formatMs at hm
  rcases List.mem_append.mp hm with h1 | h2
  · unfold jsToFixed at h1
    split at h1
    · rcases List.mem_cons.mp h1 with e | h3
      · exact absurd e (by decide)
      · rcases mem_jsToFixedAbs h3 with hd | e
        · exact isDigit_ne_F hd rfl
        · exact absurd e (by decide)
    · rcases mem_jsToFixedAbs h1 with hd | e
      · exact isDigit_ne_F hd rfl
      · exact absurd e (by decide)
  · rw [show str "ms" = ['m', 's'] from rfl] at h2
    rcases List.mem_cons.mp h2 with e | h3
    · exact absurd e (by decide)
    · rcases List.mem_cons.mp h3 with e | h4
      · exact absurd e (by decide)
      · simp at h4

theorem toLocaleStringQ_natCast (n : ℕ) : toLocaleStringQ ((n : ℕ) : ℚ) = toLocaleStringNat n := by
  unfold toLocaleStringQ
  rw [Int.floor_natCast]
  rw [if_neg (by omega)]
  simp

theorem toLocaleStringNat_ne_na {n : ℕ} : toLocaleStringNat n ≠ str "n/a" := by
  intro e
  have hm : '/' ∈ toLocaleStringNat n := by rw [e]; decide
  unfold toLocaleStringNat at hm
  rcases mem_group3 (List.mem_reverse.mp hm) with h | h
  · have := natToDigits_all_digits _ (List.mem_reverse.mp h)
    exact absurd this (by decide)
  · exact absurd h (by decide)

theorem parseNumber_toLocaleStringQ (n : ℕ) :
    parseNumber (toLocaleStringQ ((n : ℕ) : ℚ)) = some (n : ℤ) := by
  rw [toLocaleStringQ_natCast, parseNumber_toLocaleStringNat]

theorem cell_clean_optCountCell {o : Option ℚ} : ∀ c ∈ optCountCell o,
    c ≠ '|' ∧ jsWs c = false := by
  cases o with
  | none => intro c hc; revert c; decide
  | some x => exact cell_clean_toLocaleStringQ

theorem optCountCell_ne_nil {o : Option ℚ} : optCountCell o ≠ [] := by
  cases o with
  | none => decide
  | some x => exact toLocaleStringQ_ne_nil

theorem F_not_mem_optCountCell {o : Option ℚ} : 'F' ∉ optCountCell o := by
  cases o with
  | none => decide
  | some x => exact F_not_mem_toLocaleStringQ

/-- Parsing an optional-count cell recovers `?? 0`. -/
theorem optCountCell_roundtrip (o : Option ℕ) :
    (if optCountCell (o.map (fun x => (x : ℚ))) = str "n/a" then some (0 : ℚ)
     else (parseNumber (optCountCell (o.map (fun x => (x : ℚ))))).map (fun z => (z : ℚ))) =
      some ((o.getD 0 : ℕ) : ℚ) := by
  cases o with
  | none => simp [optCountCell]
  | some x =>
    simp [optCountCell, toLocaleStringQ_natCast, toLocaleStringNat_ne_na,
      parseNumber_toLocaleStringNat]

/-- The clean-cells bundle for a rendered metrics row. -/
theorem metricsRow_cells_clean {tagS : Str} {conv lat : ℚ} {pre : ℚ} {p t : Option ℚ}
    (htag : tagS = str "JSON" ∨ tagS = str "TOON" ∨ tagS = str "MARKDOWN") :
    ∀ cl ∈ [tagS, toLocaleStringQ pre, optCountCell p, optCountCell t,
      formatMs conv, formatMs lat],
      cl ≠ [] ∧ ∀ ch ∈ cl, ch ≠ '|' ∧ jsWs ch = false := by
  intro cl hcl
  simp only [List.mem_cons, List.mem_singleton, List.not_mem_nil, or_false] at hcl
  rcases hcl with rfl | rfl | rfl | rfl | rfl | rfl
  · rcases htag with rfl | rfl | rfl <;> exact ⟨by decide, by intro ch hch; revert ch; decide⟩
  · exact ⟨toLocaleStringQ_ne_nil, cell_clean_toLocaleStringQ⟩
  · exact ⟨optCountCell_ne_nil, cell_clean_optCountCell⟩
  · exact ⟨optCountCell_ne_nil, cell_clean_optCountCell⟩
  · exact ⟨formatMs_ne_nil, cell_clean_formatMs⟩
  · exact ⟨formatMs_ne_nil, cell_clean_formatMs⟩

/-- No rendered metrics-row cell contains the letter `F` (so the row cannot
contain the table-header marker). -/
theorem metricsRow_cells_noF {tagS : Str} {conv lat : ℚ} {pre : ℚ} {p t : Option ℚ}
    (htag : tagS = str "JSON" ∨ tagS = str "TOON" ∨ tagS = str "MARKDOWN") :
    ∀ cl ∈ [tagS, toLocaleStringQ pre, optCountCell p, optCountCell t,
      formatMs conv, formatMs lat], 'F' ∉ cl := by
  intro cl hcl
  simp only [List.mem_cons, List.mem_singleton, List.not_mem_nil, or_false] at hcl
  rcases hcl with rfl | rfl | rfl | rfl | rfl | rfl
  · rcases htag with rfl | rfl | rfl <;> decide
  · exact F_not_mem_toLocaleStringQ
  · exact F_not_mem_optCountCell
  · exact F_not_mem_optCountCell
  · exact F_not_mem_formatMs
  · exact F_not_mem_formatMs

/-- The full in-table walk for the three rendered rows: header, separator,
three data rows, blank line, and the `## Response Highlights` break. -/
theorem extract_table_core {jm tm mm : FormatMetrics} {post : List Str}
    (hjm : jm.format = str "JSON") (htm : tm.format = str "TOON")
    (hmm : mm.format = str "MARKDOWN") :
    extractTableFormats
      (str "Format | Input tokens sent | Prompt tokens in response | Total tokens in response | Data prep time | Gemini response time" ::
        str "--- | --- | --- | --- | --- | ---" ::
        (metricsRow jm :: metricsRow tm :: metricsRow mm ::
          ([] :: str "## Response Highlights" :: post))) false [] =
      [rowToMetrics jm.format (toLocaleStringQ jm.preflightTokenCount)
        (optCountCell jm.responsePromptTokenCount) (optCountCell jm.responseTotalTokenCount)
        (formatMs jm.conversionMs) (formatMs jm.apiLatencyMs),
       rowToMetrics tm.format (toLocaleStringQ tm.preflightTokenCount)
        (optCountCell tm.responsePromptTokenCount) (optCountCell tm.responseTotalTokenCount)
        (formatMs tm.conversionMs) (formatMs tm.apiLatencyMs),
       rowToMetrics mm.format (toLocaleStringQ mm.preflightTokenCount)
        (optCountCell mm.responsePromptTokenCount) (optCountCell mm.responseTotalTokenCount)
        (formatMs mm.conversionMs) (formatMs mm.apiLatencyMs)] := by
  rw [extract_header (by decide)]
  rw [extract_sep_row]
  rw [show metricsRow jm = joinWith (str " | ")
    [jm.format, toLocaleStringQ jm.preflightTokenCount, optCountCell jm.responsePromptTokenCount,
     optCountCell jm.responseTotalTokenCount, formatMs jm.conversionMs, formatMs jm.apiLatencyMs]
    from rfl]
  rw [extract_data_row (metricsRow_cells_clean (hjm ▸ Or.inl rfl))
    (metricsRow_cells_noF (hjm ▸ Or.inl rfl))
    (by rw [hjm]; decide) (by rw [hjm]; decide)
    ⟨'J', str "SON", by rw [hjm]; rfl, by decide⟩]
  rw [show metricsRow tm = joinWith (str " | ")
    [tm.format, toLocaleStringQ tm.preflightTokenCount, optCountCell tm.responsePromptTokenCount,
     optCountCell tm.responseTotalTokenCount, formatMs tm.conversionMs, formatMs tm.apiLatencyMs]
    from rfl]
  rw [extract_data_row (metricsRow_cells_clean (htm ▸ Or.inr (Or.inl rfl)))
    (metricsRow_cells_noF (htm ▸ Or.inr (Or.inl rfl)))
    (by rw [htm]; decide) (by rw [htm]; decide)
    ⟨'T', str "OON", by rw [htm]; rfl, by decide⟩]
  rw [show metricsRow mm = joinWith (str " | ")
    [mm.format, toLocaleStringQ mm.preflightTokenCount, optCountCell mm.responsePromptTokenCount,
     optCountCell mm.responseTotalTokenCount, formatMs mm.conversionMs, formatMs mm.apiLatencyMs]
    from rfl]
  rw [extract_data_row (metricsRow_cells_clean (hmm ▸ Or.inr (Or.inr rfl)))
    (metricsRow_cells_noF (hmm ▸ Or.inr (Or.inr rfl)))
    (by rw [hmm]; decide) (by rw [hmm]; decide)
    ⟨'M', str "ARKDOWN", by rw [hmm]; rfl, by decide⟩]
  rw [extract_blank_in_table, extract_break]
  simp

theorem clean_from_cell {c : Char} (h : c ≠ '|' ∧ jsWs c = false) : c ≠ '|' ∧ c ≠ '\n' :=
  ⟨h.1, ne_nl_of_ws_false h.2⟩

theorem savingsLine_clean {label winner loser : Str} {d : PairDeltas}
    (hlab : ∀ c ∈ label, c ≠ '|' ∧ c ≠ '\n')
    (hw : ∀ c ∈ winner, c ≠ '|' ∧ c ≠ '\n')
    (hlo : ∀ c ∈ loser, c ≠ '|' ∧ c ≠ '\n') :
    ∀ c ∈ savingsLine label winner loser d, c ≠ '|' ∧ c ≠ '\n' := by
  intro c hc
  unfold savingsLine at hc
  simp only [List.append_assoc, List.mem_append] at hc
  rcases hc with h | h | h | h | h | h
  · exact hlab c h
  · split at h
    · exact hw c h
    · exact hlo c h
  · exact ⟨by rintro rfl; revert h; decide, by rintro rfl; revert h; decide⟩
  · exact clean_from_cell (cell_clean_toLocaleStringQ c h)
  · exact ⟨by rintro rfl; revert h; decide, by rintro rfl; revert h; decide⟩
  · rcases h with h1 | h2
    · exact clean_from_cell (clean_jsToFixed c h1)
    · exact ⟨by rintro rfl; revert h2; decide, by rintro rfl; revert h2; decide⟩

theorem metricsRow_clean {m : FormatMetrics}
    (htag : m.format = str "JSON" ∨ m.format = str "TOON" ∨ m.format = str "MARKDOWN") :
    ∀ c ∈ metricsRow m, c ≠ '\n' := by
  intro c hc
  unfold metricsRow at hc
  rcases mem_joinWith hc with ⟨cl, hcl, hccl⟩ | hsep
  · exact ne_nl_of_ws_false ((metricsRow_cells_clean htag cl hcl).2 c hccl).2
  · rintro rfl
    revert hsep
    decide

theorem formatExcerpt_no_nl {e : Str} (he : '\n' ∉ e) : '\n' ∉ formatExcerpt e := by
  unfold formatExcerpt
  split
  · decide
  · split
    · exact he
    · intro hm
      rcases List.mem_cons.mp hm with e1 | hm2
      · exact absurd e1 (by decide)
      · rcases List.mem_cons.mp hm2 with e1 | hm3
        · exact absurd e1 (by decide)
        · exact he hm3

/-- The writer succeeds and produces the line-joined template whenever the
three canonical tags are present in the formats list. -/
theorem generateMarkdownReport_eq {summary : ComparisonSummary} {jm tm mm : FormatMetrics}
    (hformats : summary.formats = [jm, tm, mm])
    (hjm : jm.format = str "JSON") (htm : tm.format = str "TOON")
    (hmm : mm.format = str "MARKDOWN") :
    generateMarkdownReport summary =
      some (joinWith ['\n'] (reportLines summary jm tm mm)) := by
  unfold generateMarkdownReport
  rw [hformats]
  simp +decide [List.find?, hjm, htm, hmm]

/-- The parsed record's `formats` are exactly the extracted table rows
whenever these carry the three canonical tags. -/
theorem parseMarkdownReport_formats {content : Str} {f1 f2 f3 : ParsedFormatMetrics}
    (hx : extractTableFormats (splitChar '\n' content) false [] = [f1, f2, f3])
    (hf1 : f1.format = str "JSON") (hf2 : f2.format = str "TOON")
    (hf3 : f3.format = str "MARKDOWN") :
    (parseMarkdownReport content).map (fun r => r.formats) = some [f1, f2, f3] := by
  unfold parseMarkdownReport
  dsimp only
  rw [hx]
  rw [if_neg (by simp)]
  simp +decide [List.find?, hf1, hf2, hf3]

theorem meta_line_no_nl {pre s : Str} (hpre : '\n' ∉ pre)
    (hs : ∀ c ∈ s, c ≠ '|' ∧ c ≠ '\n') : '\n' ∉ pre ++ s := by
  intro hm
  rcases List.mem_append.mp hm with h | h
  · exact hpre h
  · exact (hs _ h).2 rfl

theorem meta_line_no_pipe {pre s : Str} (hpre : '|' ∉ pre)
    (hs : ∀ c ∈ s, c ≠ '|' ∧ c ≠ '\n') : '|' ∉ pre ++ s := by
  intro hm
  rcases List.mem_append.mp hm with h | h
  · exact hpre h
  · exact (hs _ h).1 rfl

/-- One rendered row parses back to the numeric fields of the claim:
integer counts exactly, `n/a` to `0`, durations to one decimal digit. -/
theorem rowToMetrics_roundtrip (tagS : Str) (conv lat : ℚ) (n : ℕ) (p t : Option ℕ)
    (hconv : 0 ≤ conv) (hlat : 0 ≤ lat) :
    rowToMetrics tagS (toLocaleStringQ ((n : ℕ) : ℚ))
      (optCountCell (p.map (fun x => (x : ℚ))))
      (optCountCell (t.map (fun x => (x : ℚ))))
      (formatMs conv) (formatMs lat) =
      { format := tagS, preflightTokenCount := some ((n : ℕ) : ℚ),
        responsePromptTokenCount := some ((p.getD 0 : ℕ) : ℚ),
        responseTotalTokenCount := some ((t.getD 0 : ℕ) : ℚ),
        conversionMs := some (round1 conv), apiLatencyMs := some (round1 lat) } := by
  unfold rowToMetrics
  rw [ParsedFormatMetrics.mk.injEq]
  refine ⟨rfl, ?_, optCountCell_roundtrip p, optCountCell_roundtrip t,
    parseMs_formatMs hconv, parseMs_formatMs hlat⟩
  rw [parseNumber_toLocaleStringQ]
  simp

/-- **C1** (round-trip law): parsing the Markdown report written for a trial
recovers the trial's formats list numerically — integer token counts exactly
(thousands separators stripped; an absent count rendered `n/a` maps to `0`)
and the two duration fields to one decimal digit (`toFixed(1)` rendered,
reparsed from the numeric portion before `ms`). The trial's text fields are
assumed free of `|` and newline characters (they are model names, paths,
ISO timestamps and single-line excerpts), durations nonnegative and token
counts natural numbers (§3 invariant). -/
theorem c1_report_roundtrip
    (jm tm mm : FormatMetrics) (trial : ComparisonSummary)
    (modelS dsS tsS e1 e2 e3 : Str) (cj ct cm lj lt lm : ℚ) (nj nt nm : ℕ)
    (pj pt pm tj tt2 tm2 : Option ℕ)
    (hjmdef : jm = ⟨str "JSON", cj, (nj : ℚ), lj, pj.map (fun x => (x : ℚ)),
      tj.map (fun x => (x : ℚ)), e1⟩)
    (htmdef : tm = ⟨str "TOON", ct, (nt : ℚ), lt, pt.map (fun x => (x : ℚ)),
      tt2.map (fun x => (x : ℚ)), e2⟩)
    (hmmdef : mm = ⟨str "MARKDOWN", cm, (nm : ℚ), lm, pm.map (fun x => (x : ℚ)),
      tm2.map (fun x => (x : ℚ)), e3⟩)
    (htrialdef : trial = ⟨modelS, dsS, tsS, [jm, tm, mm], computeDeltas jm tm mm⟩)
    (hcj : 0 ≤ cj) (hct : 0 ≤ ct) (hcm : 0 ≤ cm)
    (hlj : 0 ≤ lj) (hlt : 0 ≤ lt) (hlm : 0 ≤ lm)
    (hmodel : ∀ c ∈ modelS, c ≠ '|' ∧ c ≠ '\n')
    (hds : ∀ c ∈ dsS, c ≠ '|' ∧ c ≠ '\n')
    (hts : ∀ c ∈ tsS, c ≠ '|' ∧ c ≠ '\n')
    (he1 : '\n' ∉ e1) (he2 : '\n' ∉ e2) (he3 : '\n' ∉ e3) :
    ((generateMarkdownReport trial).bind parseMarkdownReport).map (fun r => r.formats) =
      some
        [⟨str "JSON", some ((nj : ℕ) : ℚ), some ((pj.getD 0 : ℕ) : ℚ),
          some ((tj.getD 0 : ℕ) : ℚ), some (round1 cj), some (round1 lj)⟩,
         ⟨str "TOON", some ((nt : ℕ) : ℚ), some ((pt.getD 0 : ℕ) : ℚ),
          some ((tt2.getD 0 : ℕ) : ℚ), some (round1 ct), some (round1 lt)⟩,
         ⟨str "MARKDOWN", some ((nm : ℕ) : ℚ), some ((pm.getD 0 : ℕ) : ℚ),
          some ((tm2.getD 0 : ℕ) : ℚ), some (round1 cm), some (round1 lm)⟩] := by
  subst hjmdef htmdef hmmdef htrialdef
  rw [generateMarkdownReport_eq rfl rfl rfl rfl]
  simp only [Option.some_bind]
  have hnl : ∀ l ∈ reportLines
      ⟨modelS, dsS, tsS,
        [⟨str "JSON", cj, (nj : ℚ), lj, pj.map (fun x => (x : ℚ)),
          tj.map (fun x => (x : ℚ)), e1⟩,
         ⟨str "TOON", ct, (nt : ℚ), lt, pt.map (fun x => (x : ℚ)),
          tt2.map (fun x => (x : ℚ)), e2⟩,
         ⟨str "MARKDOWN", cm, (nm : ℚ), lm, pm.map (fun x => (x : ℚ)),
          tm2.map (fun x => (x : ℚ)), e3⟩],
        computeDeltas
          ⟨str "JSON", cj, (nj : ℚ), lj, pj.map (fun x => (x : ℚ)),
            tj.map (fun x => (x : ℚ)), e1⟩
          ⟨str "TOON", ct, (nt : ℚ), lt, pt.map (fun x => (x : ℚ)),
            tt2.map (fun x => (x : ℚ)), e2⟩
          ⟨str "MARKDOWN", cm, (nm : ℚ), lm, pm.map (fun x => (x : ℚ)),
            tm2.map (fun x => (x : ℚ)), e3⟩⟩
      ⟨str "JSON", cj, (nj : ℚ), lj, pj.map (fun x => (x : ℚ)),
        tj.map (fun x => (x : ℚ)), e1⟩
      ⟨str "TOON", ct, (nt : ℚ), lt, pt.map (fun x => (x : ℚ)),
        tt2.map (fun x => (x : ℚ)), e2⟩
      ⟨str "MARKDOWN", cm, (nm : ℚ), lm, pm.map (fun x => (x : ℚ)),
        tm2.map (fun x => (x : ℚ)), e3⟩, '\n' ∉ l := by
    simp only [reportLines, List.map_cons, List.map_nil]
    intro l hl
    simp only [List.mem_append, List.mem_cons, List.not_mem_nil, or_false, or_assoc] at hl
    rcases hl with rfl | rfl | rfl | rfl | rfl | rfl | rfl | rfl | rfl | rfl | rfl | rfl | rfl |
      rfl | rfl | rfl | rfl | rfl | rfl | rfl | rfl | rfl | rfl | rfl | rfl | rfl | rfl | rfl |
      rfl | rfl | rfl | rfl | rfl | rfl | rfl | rfl | rfl | rfl | rfl | rfl | rfl | rfl | rfl |
      rfl | rfl | rfl | rfl
    · decide
    · decide
    · exact meta_line_no_nl (by decide) hmodel
    · exact meta_line_no_nl (by decide) hds
    · exact meta_line_no_nl (by decide) hts
    · decide
    · decide
    · decide
    · decide
    · exact fun hm => (savingsLine_clean (by decide) (by decide) (by decide) '\n' hm).2 rfl
    · exact fun hm => (savingsLine_clean (by decide) (by decide) (by decide) '\n' hm).2 rfl
    · exact fun hm => (savingsLine_clean (by decide) (by decide) (by decide) '\n' hm).2 rfl
    · decide
    · decide
    · exact meta_line_no_nl (by decide) (fun c hc => clean_from_cell (line_clean_fastest c hc))
    · exact meta_line_no_nl (by decide) (fun c hc => clean_from_cell (cell_clean_formatMs c hc))
    · exact meta_line_no_nl (by decide) (fun c hc => clean_from_cell (cell_clean_formatMs c hc))
    · decide
    · decide
    · decide
    · decide
    · decide
    · exact fun hm => metricsRow_clean (Or.inl rfl) '\n' hm rfl
    · exact fun hm => metricsRow_clean (Or.inr (Or.inl rfl)) '\n' hm rfl
    · exact fun hm => metricsRow_clean (Or.inr (Or.inr rfl)) '\n' hm rfl
    · decide
    · decide
    · decide
    · decide
    · exact formatExcerpt_no_nl he1
    · decide
    · decide
    · exact formatExcerpt_no_nl he2
    · decide
    · decide
    · exact formatExcerpt_no_nl he3
    · decide
    · decide
    · decide
    · decide
    · decide
    · decide
    · decide
    · decide
    · decide
    · decide
    · decide
  have hRne : ∀ (s : ComparisonSummary) (a b c : FormatMetrics), reportLines s a b c ≠ [] := by
    intro s a b c
    simp [reportLines]
  apply parseMarkdownReport_formats _ rfl rfl rfl
  rw [splitChar_joinWith hnl (hRne _ _ _ _)]
  simp only [reportLines, List.map_cons, List.map_nil, List.cons_append, List.nil_append]
  rw [extract_skip_out (containsSub_eq_false (show '|' ∈ str "Format | Input tokens sent"
    from by decide) (by decide))]
  rw [extract_skip_out (containsSub_eq_false (show '|' ∈ str "Format | Input tokens sent"
    from by decide) (by decide))]
  rw [extract_skip_out (containsSub_eq_false (show '|' ∈ str "Format | Input tokens sent"
    from by decide) (meta_line_no_pipe (by decide) hmodel))]
  rw [extract_skip_out (containsSub_eq_false (show '|' ∈ str "Format | Input tokens sent"
    from by decide) (meta_line_no_pipe (by decide) hds))]
  rw [extract_skip_out (containsSub_eq_false (show '|' ∈ str "Format | Input tokens sent"
    from by decide) (meta_line_no_pipe (by decide) hts))]
  rw [extract_skip_out (containsSub_eq_false (show '|' ∈ str "Format | Input tokens sent"
    from by decide) (by decide))]
  rw [extract_skip_out (containsSub_eq_false (show '|' ∈ str "Format | Input tokens sent"
    from by decide) (by decide))]
  rw [extract_skip_out (containsSub_eq_false (show '|' ∈ str "Format | Input tokens sent"
    from by decide) (by decide))]
  rw [extract_skip_out (containsSub_eq_false (show '|' ∈ str "Format | Input tokens sent"
    from by decide) (by decide))]
  rw [extract_skip_out (containsSub_eq_false (show '|' ∈ str "Format | Input tokens sent"
    from by decide) (fun hm => (savingsLine_clean (by decide) (by decide) (by decide)
      '|' hm).1 rfl))]
  rw [extract_skip_out (containsSub_eq_false (show '|' ∈ str "Format | Input tokens sent"
    from by decide) (fun hm => (savingsLine_clean (by decide) (by decide) (by decide)
      '|' hm).1 rfl))]
  rw [extract_skip_out (containsSub_eq_false (show '|' ∈ str "Format | Input tokens sent"
    from by decide) (fun hm => (savingsLine_clean (by decide) (by decide) (by decide)
      '|' hm).1 rfl))]
  rw [extract_skip_out (containsSub_eq_false (show '|' ∈ str "Format | Input tokens sent"
    from by decide) (by decide))]
  rw [extract_skip_out (containsSub_eq_false (show '|' ∈ str "Format | Input tokens sent"
    from by decide) (by decide))]
  rw [extract_skip_out (containsSub_eq_false (show '|' ∈ str "Format | Input tokens sent"
    from by decide) (meta_line_no_pipe (by decide)
      (fun c hc => clean_from_cell (line_clean_fastest c hc))))]
  rw [extract_skip_out (containsSub_eq_false (show '|' ∈ str "Format | Input tokens sent"
    from by decide) (meta_line_no_pipe (by decide)
      (fun c hc => clean_from_cell (cell_clean_formatMs c hc))))]
  rw [extract_skip_out (containsSub_eq_false (show '|' ∈ str "Format | Input tokens sent"
    from by decide) (meta_line_no_pipe (by decide)
      (fun c hc => clean_from_cell (cell_clean_formatMs c hc))))]
  rw [extract_skip_out (containsSub_eq_false (show '|' ∈ str "Format | Input tokens sent"
    from by decide) (by decide))]
  rw [extract_skip_out (containsSub_eq_false (show '|' ∈ str "Format | Input tokens sent"
    from by decide) (by decide))]
  rw [extract_skip_out (containsSub_eq_false (show '|' ∈ str "Format | Input tokens sent"
    from by decide) (by decide))]
  rw [extract_table_core rfl rfl rfl]
  rw [show (⟨str "JSON", cj, (nj : ℚ), lj, pj.map (fun x => (x : ℚ)),
      tj.map (fun x => (x : ℚ)), e1⟩ : FormatMetrics).format = str "JSON" from rfl]
  rw [rowToMetrics_roundtrip (str "JSON") cj lj nj pj tj hcj hlj]
  rw [show (⟨str "TOON", ct, (nt : ℚ), lt, pt.map (fun x => (x : ℚ)),
      tt2.map (fun x => (x : ℚ)), e2⟩ : FormatMetrics).format = str "TOON" from rfl]
  rw [rowToMetrics_roundtrip (str "TOON") ct lt nt pt tt2 hct hlt]
  rw [show (⟨str "MARKDOWN", cm, (nm : ℚ), lm, pm.map (fun x => (x : ℚ)),
      tm2.map (fun x => (x : ℚ)), e3⟩ : FormatMetrics).format = str "MARKDOWN" from rfl]
  rw [rowToMetrics_roundtrip (str "MARKDOWN") cm lm nm pm tm2 hcm hlm]

/-- Witness for C1: a concrete trial (non-round durations, one `n/a` prompt
count, one `n/a` total count) whose rendered report parses back to the
expected formats list. -/
theorem c1_report_roundtrip_witness :
    ((generateMarkdownReport
        ⟨str "gemini", str "d.json", str "t0",
         [⟨str "JSON", (12 : ℚ), ((1404 : ℕ) : ℚ), (7533 : ℚ),
            (some 10 : Option ℕ).map (fun x => (x : ℚ)),
            (some 20 : Option ℕ).map (fun x => (x : ℚ)), str "a"⟩,
          ⟨str "TOON", (34 : ℚ), ((1004 : ℕ) : ℚ), (6712 : ℚ),
            (none : Option ℕ).map (fun x => (x : ℚ)),
            (some 21 : Option ℕ).map (fun x => (x : ℚ)), str "b"⟩,
          ⟨str "MARKDOWN", (56 : ℚ), ((1500 : ℕ) : ℚ), (8001 : ℚ),
            (some 7 : Option ℕ).map (fun x => (x : ℚ)),
            (none : Option ℕ).map (fun x => (x : ℚ)), str "c"⟩],
         computeDeltas
           ⟨str "JSON", (12 : ℚ), ((1404 : ℕ) : ℚ), (7533 : ℚ),
             (some 10 : Option ℕ).map (fun x => (x : ℚ)),
             (some 20 : Option ℕ).map (fun x => (x : ℚ)), str "a"⟩
           ⟨str "TOON", (34 : ℚ), ((1004 : ℕ) : ℚ), (6712 : ℚ),
             (none : Option ℕ).map (fun x => (x : ℚ)),
             (some 21 : Option ℕ).map (fun x => (x : ℚ)), str "b"⟩
           ⟨str "MARKDOWN", (56 : ℚ), ((1500 : ℕ) : ℚ), (8001 : ℚ),
             (some 7 : Option ℕ).map (fun x => (x : ℚ)),
             (none : Option ℕ).map (fun x => (x : ℚ)), str "c"⟩⟩).bind
      parseMarkdownReport).map (fun r => r.formats) =
      some
        [⟨str "JSON", some ((1404 : ℕ) : ℚ), some (((some 10 : Option ℕ).getD 0 : ℕ) : ℚ),
          some (((some 20 : Option ℕ).getD 0 : ℕ) : ℚ), some (round1 12), some (round1 7533)⟩,
         ⟨str "TOON", some ((1004 : ℕ) : ℚ), some (((none : Option ℕ).getD 0 : ℕ) : ℚ),
          some (((some 21 : Option ℕ).getD 0 : ℕ) : ℚ), some (round1 34), some (round1 6712)⟩,
         ⟨str "MARKDOWN", some ((1500 : ℕ) : ℚ), some (((some 7 : Option ℕ).getD 0 : ℕ) : ℚ),
          some (((none : Option ℕ).getD 0 : ℕ) : ℚ), some (round1 56), some (round1 8001)⟩] := by
  exact c1_report_roundtrip _ _ _ _ _ _ _ _ _ _ _ _ _ _ _ _ _ _ _ _ _ _ _ _ _
    rfl rfl rfl rfl (by norm_num) (by norm_num) (by norm_num) (by norm_num) (by norm_num)
    (by norm_num) (by decide) (by decide) (by decide) (by decide) (by decide) (by decide)

/-- **C2** Delta Engine correctness: for each of the three fixed pairs,
`computeDeltas` yields `tokenSavings = A.preflight − B.preflight` exactly,
`tokenSavingsPercent = savings / A.preflight × 100` when the baseline
preflight is nonzero and exactly `0` when it is zero (ℚ, so never
infinity/NaN), `apiLatencyDeltaMs = A.latency − B.latency` and
`conversionOverheadMs = B.conversionMs − A.conversionMs`; and the concrete
instance (JSON preflight 1404, latency 7533; TOON preflight 1004, latency
6712) yields savings 400, percent 10000/351 ≈ 28.49 and latency delta 821. -/
theorem c2_computeDeltas (jm tm mm : FormatMetrics) :
    ((computeDeltas jm tm mm).toonVsJson.tokenSavings =
        jm.preflightTokenCount - tm.preflightTokenCount ∧
      (computeDeltas jm tm mm).toonVsJson.apiLatencyDeltaMs =
        jm.apiLatencyMs - tm.apiLatencyMs ∧
      (computeDeltas jm tm mm).toonVsJson.conversionOverheadMs =
        tm.conversionMs - jm.conversionMs ∧
      (jm.preflightTokenCount = 0 →
        (computeDeltas jm tm mm).toonVsJson.tokenSavingsPercent = 0) ∧
      (jm.preflightTokenCount ≠ 0 →
        (computeDeltas jm tm mm).toonVsJson.tokenSavingsPercent =
          (jm.preflightTokenCount - tm.preflightTokenCount) /
            jm.preflightTokenCount * 100)) ∧
    ((computeDeltas jm tm mm).markdownVsJson.tokenSavings =
        jm.preflightTokenCount - mm.preflightTokenCount ∧
      (computeDeltas jm tm mm).markdownVsJson.apiLatencyDeltaMs =
        jm.apiLatencyMs - mm.apiLatencyMs ∧
      (computeDeltas jm tm mm).markdownVsJson.conversionOverheadMs =
        mm.conversionMs - jm.conversionMs ∧
      (jm.preflightTokenCount = 0 →
        (computeDeltas jm tm mm).markdownVsJson.tokenSavingsPercent = 0) ∧
      (jm.preflightTokenCount ≠ 0 →
        (computeDeltas jm tm mm).markdownVsJson.tokenSavingsPercent =
          (jm.preflightTokenCount - mm.preflightTokenCount) /
            jm.preflightTokenCount * 100)) ∧
    ((computeDeltas jm tm mm).markdownVsToon.tokenSavings =
        tm.preflightTokenCount - mm.preflightTokenCount ∧
      (computeDeltas jm tm mm).markdownVsToon.apiLatencyDeltaMs =
        tm.apiLatencyMs - mm.apiLatencyMs ∧
      (computeDeltas jm tm mm).markdownVsToon.conversionOverheadMs =
        mm.conversionMs - tm.conversionMs ∧
      (tm.preflightTokenCount = 0 →
        (computeDeltas jm tm mm).markdownVsToon.tokenSavingsPercent = 0) ∧
      (tm.preflightTokenCount ≠ 0 →
        (computeDeltas jm tm mm).markdownVsToon.tokenSavingsPercent =
          (tm.preflightTokenCount - mm.preflightTokenCount) /
            tm.preflightTokenCount * 100)) ∧
    ((computeDeltas ⟨str "JSON", 0, 1404, 7533, none, none, []⟩
        ⟨str "TOON", 0, 1004, 6712, none, none, []⟩
        ⟨str "MARKDOWN", 0, 0, 0, none, none, []⟩).toonVsJson.tokenSavings = 400 ∧
      (computeDeltas ⟨str "JSON", 0, 1404, 7533, none, none, []⟩
        ⟨str "TOON", 0, 1004, 6712, none, none, []⟩
        ⟨str "MARKDOWN", 0, 0, 0, none, none, []⟩).toonVsJson.tokenSavingsPercent =
          10000 / 351 ∧
      |(computeDeltas ⟨str "JSON", 0, 1404, 7533, none, none, []⟩
        ⟨str "TOON", 0, 1004, 6712, none, none, []⟩
        ⟨str "MARKDOWN", 0, 0, 0, none, none, []⟩).toonVsJson.tokenSavingsPercent -
          2849 / 100| < 1 / 100 ∧
      (computeDeltas ⟨str "JSON", 0, 1404, 7533, none, none, []⟩
        ⟨str "TOON", 0, 1004, 6712, none, none, []⟩
        ⟨str "MARKDOWN", 0, 0, 0, none, none, []⟩).toonVsJson.apiLatencyDeltaMs = 821) := by
  refine ⟨⟨rfl, rfl, rfl, fun h => ?_, fun h => ?_⟩,
    ⟨rfl, rfl, rfl, fun h => ?_, fun h => ?_⟩,
    ⟨rfl, rfl, rfl, fun h => ?_, fun h => ?_⟩, ?_, ?_, ?_, ?_⟩
  · simp [computeDeltas, h]
  · simp [computeDeltas, h]
  · simp [computeDeltas, h]
  · simp [computeDeltas, h]
  · simp [computeDeltas, h]
  · simp [computeDeltas, h]
  · norm_num [computeDeltas]
  · norm_num [computeDeltas]
  · norm_num [computeDeltas, abs_lt]
  · norm_num [computeDeltas]

/-- Witness for C2: the nonzero-baseline percent formula discharged at the
1404/1004 scenario. -/
theorem c2_computeDeltas_witness :
    (computeDeltas ⟨str "JSON", 0, 1404, 7533, none, none, []⟩
      ⟨str "TOON", 0, 1004, 6712, none, none, []⟩
      ⟨str "MARKDOWN", 0, 0, 0, none, none, []⟩).toonVsJson.tokenSavingsPercent =
      ((1404 : ℚ) - 1004) / 1404 * 100 :=
  (c2_computeDeltas ⟨str "JSON", 0, 1404, 7533, none, none, []⟩
    ⟨str "TOON", 0, 1004, 6712, none, none, []⟩
    ⟨str "MARKDOWN", 0, 0, 0, none, none, []⟩).1.2.2.2.2 (by norm_num)

/-- **C7** Fastest-format selection: `getFastestFormat` (head of the stable
insertion sort of the latency table, i.e. the source's
`[...].sort((a, b) => a.latency - b.latency)[0]`) agrees with the spec's
arg-min with ties broken by the fixed enumeration order JSON, TOON,
MARKDOWN (`fastestFormatSpec`, the first entry attaining the minimum). -/
theorem c7_fastest_format (j t m : ℚ) :
    fastestFormatSpec j t m = some (fastestByLatency j t m) := by
  unfold fastestFormatSpec fastestByLatency
  by_cases h1 : t ≤ m <;> by_cases h2 : j ≤ t <;> by_cases h3 : j ≤ m <;>
    first
      | exact absurd (h2.trans h1) h3
      | exact absurd (h3.trans (le_of_not_le h1)) h2
      | (have h4 := le_of_not_le h2
         have h5 := le_of_not_le h3
         have h6 := le_of_not_le h1
         simp [List.insertionSort, List.orderedInsert, List.find?, h1, h2, h3, h4, h5, h6]
         done)
      | (have h4 := le_of_not_le h2
         have h5 := le_of_not_le h3
         simp [List.insertionSort, List.orderedInsert, List.find?, h1, h2, h3, h4, h5]
         done)
      | (have h4 := le_of_not_le h2
         simp [List.insertionSort, List.orderedInsert, List.find?, h1, h2, h3, h4]
         done)
      | (have h5 := le_of_not_le h3
         have h6 := le_of_not_le h1
         simp [List.insertionSort, List.orderedInsert, List.find?, h1, h2, h3, h5, h6]
         done)
      | (simp [List.insertionSort, List.orderedInsert, List.find?, h1, h2, h3]
         done)

/-- **C9 counterexample**: the claim says malformed switch values fall back
to values clamped into the valid ranges, never producing a non-numeric
result — but `--repeat=abc` gives `Math.max(1, Number('abc')) = NaN`
(modelled as `none`), not a number ≥ 1. -/
theorem c9_cli_counterexample :
    (parseCliArgs [str "--repeat=abc"]).repeatCount = none := by decide

/-- **C9 amended**: `parseCliArgs` clamps only *numeric* switch values: an
absent `--repeat=`/`--delayMs=` switch defaults to 1 / 20000; a present
switch whose value parses as a number q yields `max 1 q` (≥ 1) resp.
`max 0 q` (≥ 0); a present switch whose value is NaN propagates NaN
(`none`), with no fallback to the defaults. -/
theorem c9_cli_amended (argv : List Str) :
    ((argv.find? (fun arg => hasPre (str "--repeat=") arg) = none →
        (parseCliArgs argv).repeatCount = some 1) ∧
      (∀ arg q, argv.find? (fun a => hasPre (str "--repeat=") a) = some arg →
        (splitEqSecond arg).bind jsNumber = some q →
        (parseCliArgs argv).repeatCount = some (max 1 q) ∧ (1 : ℚ) ≤ max 1 q) ∧
      (∀ arg, argv.find? (fun a => hasPre (str "--repeat=") a) = some arg →
        (splitEqSecond arg).bind jsNumber = none →
        (parseCliArgs argv).repeatCount = none)) ∧
    ((argv.find? (fun arg => hasPre (str "--delayMs=") arg) = none →
        (parseCliArgs argv).delayMs = some 20000) ∧
      (∀ arg q, argv.find? (fun a => hasPre (str "--delayMs=") a) = some arg →
        (splitEqSecond arg).bind jsNumber = some q →
        (parseCliArgs argv).delayMs = some (max 0 q) ∧ (0 : ℚ) ≤ max 0 q) ∧
      (∀ arg, argv.find? (fun a => hasPre (str "--delayMs=") a) = some arg →
        (splitEqSecond arg).bind jsNumber = none →
        (parseCliArgs argv).delayMs = none)) := by
  refine ⟨⟨fun h => ?_, fun arg q h1 h2 => ⟨?_, le_max_left 1 q⟩, fun arg h1 h2 => ?_⟩,
    ⟨fun h => ?_, fun arg q h1 h2 => ⟨?_, le_max_left 0 q⟩, fun arg h1 h2 => ?_⟩⟩ <;>
    simp [parseCliArgs, jsMax, *]

/-- Witness for C9 amended: `--repeat=5` is found, parses to 5, and is
clamped to `max 1 5`. -/
theorem c9_cli_amended_witness :
    (parseCliArgs [str "--repeat=5"]).repeatCount = some (max 1 5) ∧
      (1 : ℚ) ≤ max 1 5 :=
  (c9_cli_amended [str "--repeat=5"]).1.2.1 (str "--repeat=5") 5 (by decide) (by decide)

/-- **C5** Row-count parse failure: whenever the metrics-table extraction
yields a number of rows different from the expected 3, `parseMarkdownReport`
returns no record, and the aggregation's collection loop drops any file
whose content fails to parse and continues with the remaining files. (The
accompanying `console.warn` is an I/O side effect outside the embedded
state.) -/
theorem c5_row_count_skip (content : Str) (pre post : List Str) :
    ((extractTableFormats (splitChar '\n' content) false []).length ≠ 3 →
      parseMarkdownReport content = none) ∧
    (parseMarkdownReport content = none →
      collectReports (pre ++ content :: post) = collectReports (pre ++ post)) := by
  constructor
  · intro h
    simp only [parseMarkdownReport]
    rw [if_pos h]
  · intro h
    simp [collectReports, List.filterMap_append, List.filterMap_cons, h]

/-- Witness for C5: a report whose table has only 2 rows fails to parse
and is dropped from the collection. -/
theorem c5_row_count_skip_witness :
    (extractTableFormats (splitChar '\n'
        (str "Format | Input tokens sent | a | b | c | d\nJSON | 1 | 2 | 3 | 4.0ms | 5.0ms\nTOON | 1 | 2 | 3 | 4.0ms | 5.0ms"))
      false []).length ≠ 3 ∧
    parseMarkdownReport
      (str "Format | Input tokens sent | a | b | c | d\nJSON | 1 | 2 | 3 | 4.0ms | 5.0ms\nTOON | 1 | 2 | 3 | 4.0ms | 5.0ms") =
      none ∧
    collectReports
      [str "Format | Input tokens sent | a | b | c | d\nJSON | 1 | 2 | 3 | 4.0ms | 5.0ms\nTOON | 1 | 2 | 3 | 4.0ms | 5.0ms"] =
      collectReports [] :=
  ⟨by decide,
   (c5_row_count_skip
     (str "Format | Input tokens sent | a | b | c | d\nJSON | 1 | 2 | 3 | 4.0ms | 5.0ms\nTOON | 1 | 2 | 3 | 4.0ms | 5.0ms")
     [] []).1 (by decide),
   (c5_row_count_skip
     (str "Format | Input tokens sent | a | b | c | d\nJSON | 1 | 2 | 3 | 4.0ms | 5.0ms\nTOON | 1 | 2 | 3 | 4.0ms | 5.0ms")
     [] []).2 ((c5_row_count_skip
       (str "Format | Input tokens sent | a | b | c | d\nJSON | 1 | 2 | 3 | 4.0ms | 5.0ms\nTOON | 1 | 2 | 3 | 4.0ms | 5.0ms")
       [] []).1 (by decide))⟩

/-- **C6 counterexample**: the claim says zero parseable reports abort the
run with an error and a non-zero exit code; but on a directory whose only
`.md` file is unparseable the code reaches `console.error(...); return` —
the promise resolves, the `catch` never fires, and the process exit code
stays 0. -/
theorem c6_empty_counterexample :
    aggregateReports [(str "x.md", str "garbage")] = AggOutcome.noValidReports ∧
      aggregateRunExitCode [(str "x.md", str "garbage")] = 0 := by decide

/-- **C6 amended**: when zero stored reports parse successfully the
aggregation run stops early without emitting a summary (`noValidReports`,
the `console.error` + `return` branch), completes normally, and the process
exit code remains 0 — no error is raised and no non-zero exit occurs. -/
theorem c6_empty_amended (files : List (Str × Str))
    (h : collectReports
      (((files.filter (fun f => hasSuf (str ".md") f.1)).insertionSort
        (fun a b => lexLe a.1 b.1 = true)).map (·.2)) = []) :
    aggregateReports files = AggOutcome.noValidReports ∧
      aggregateRunExitCode files = 0 := by
  have houtcome : aggregateReports files = AggOutcome.noValidReports := by
    simp only [aggregateReports]
    rw [h]
    rfl
  exact ⟨houtcome, by simp [aggregateRunExitCode, houtcome]⟩

/-- Witness for C6 amended: the empty directory. -/
theorem c6_empty_amended_witness :
    aggregateReports [] = AggOutcome.noValidReports ∧ aggregateRunExitCode [] = 0 :=
  c6_empty_amended [] (by decide)

/-- **C8** (refuted — renderer can throw): on the well-formed JSON input
`[{}, null]` the first element is a plain object, so `jsonToMarkdown`
dispatches to `arrayOfObjectsToTable`, whose header pass runs
`Object.keys(item)` over *every* element; `Object.keys(null)` throws a
`TypeError` (modelled as `none`), so the renderer is not total on
JSON-compatible input. -/
theorem c8_renderer_throws :
    jsonToMarkdown (Json.arr [Json.obj [], Json.null]) = none := by
  simp [jsonToMarkdown, arrayOfObjectsToTable, keysUnion, jsKeys, addKeys]

/-- **C10 counterexample**: the claim says later scalar elements of a
table-dispatched mixed array contribute no cells; but `Object.keys` of a
string yields its index keys, so appending `"xy"` to `[{a: 1}]` gains
headers `0`, `1` and a data row with character cells `x`, `y` — the later
string element visibly changes the table rendering. -/
theorem c10_dispatch_counterexample :
    jsonToMarkdown (Json.arr [Json.obj [(str "a", Json.num (str "1"))], Json.str (str "xy")]) =
      some (str "| A | 0 | 1 |\n| --- | --- | --- |\n| 1 |  |  |\n|  | x | y |") ∧
    jsonToMarkdown (Json.arr [Json.obj [(str "a", Json.num (str "1"))]]) =
      some (str "| A |\n| --- |\n| 1 |") := by
  have hnd0 : natToDigits 0 = str "0" := by rw [natToDigits]; decide
  have hnd1 : natToDigits 1 = str "1" := by rw [natToDigits]; decide
  have hr2 : List.range 2 = [0, 1] := by decide
  have hjga : jsGet (Json.obj [(str "a", Json.num (str "1"))]) (str "a") =
      some (Json.num (str "1")) := rfl
  have hjg0 : jsGet (Json.obj [(str "a", Json.num (str "1"))]) (str "0") = none := rfl
  have hjg1 : jsGet (Json.obj [(str "a", Json.num (str "1"))]) (str "1") = none := rfl
  have hsga : jsGet (Json.str (str "xy")) (str "a") = none := by
    simp +decide [jsGet, str, List.findSome?, hr2, hnd0, hnd1]
  have hsg0 : jsGet (Json.str (str "xy")) (str "0") = some (Json.str (str "x")) := by
    simp +decide [jsGet, str, List.findSome?, hr2, hnd0, hnd1]
  have hsg1 : jsGet (Json.str (str "xy")) (str "1") = some (Json.str (str "y")) := by
    simp +decide [jsGet, str, List.findSome?, hr2, hnd0, hnd1]
  have hkO : jsKeys (Json.obj [(str "a", Json.num (str "1"))]) = some [str "a"] := rfl
  have hkS : jsKeys (Json.str (str "xy")) = some [str "0", str "1"] := by
    simp +decide [jsKeys, str, indexKeys, hr2, hnd0, hnd1]
  have hku2 : keysUnion [Json.obj [(str "a", Json.num (str "1"))], Json.str (str "xy")] =
      some [str "a", str "0", str "1"] := by
    simp +decide [keysUnion, List.foldlM, hkO, hkS, addKeys, List.foldl]
  have hku1 : keysUnion [Json.obj [(str "a", Json.num (str "1"))]] = some [str "a"] := by
    simp +decide [keysUnion, List.foldlM, hkO, addKeys, List.foldl]
  have hcva : cellValue (Json.obj [(str "a", Json.num (str "1"))]) (str "a") =
      some (str "1") := by
    simp only [cellValue]
    split <;> simp_all [jsString]
  have hcv0 : cellValue (Json.obj [(str "a", Json.num (str "1"))]) (str "0") = some [] := by
    simp only [cellValue]
    split <;> simp_all
  have hcv1 : cellValue (Json.obj [(str "a", Json.num (str "1"))]) (str "1") = some [] := by
    simp only [cellValue]
    split <;> simp_all
  have hcsa : cellValue (Json.str (str "xy")) (str "a") = some [] := by
    simp only [cellValue]
    split <;> simp_all
  have hcs0 : cellValue (Json.str (str "xy")) (str "0") = some (str "x") := by
    simp only [cellValue]
    split <;> simp_all [jsString]
  have hcs1 : cellValue (Json.str (str "xy")) (str "1") = some (str "y") := by
    simp only [cellValue]
    split <;> simp_all [jsString]
  constructor
  · simp only [jsonToMarkdown, arrayOfObjectsToTable, rowsRender, cellsForItem,
      hku2, hcva, hcv0, hcv1, hcsa, hcs0, hcs1, Option.bind_eq_bind, Option.some_bind,
      Option.pure_def]
    decide
  · simp only [jsonToMarkdown, arrayOfObjectsToTable, rowsRender, cellsForItem,
      hku1, hcva, Option.bind_eq_bind, Option.some_bind, Option.pure_def]
    decide

/-- **C10 amended**: `jsonToMarkdown` does dispatch solely on the first
array element (table iff it is a plain object, bullets for every other
head, regardless of the remaining elements); but in the table path later
string elements contribute their index keys as headers (and their
characters as cells), while later numbers and booleans contribute no keys. -/
theorem c10_dispatch_amended (f0 : List (Str × Json)) (rest items elts : List Json)
    (b : Bool) (r s : Str) :
    (jsonToMarkdown (Json.arr (Json.obj f0 :: rest)) =
        arrayOfObjectsToTable (Json.obj f0 :: rest) ∧
      jsonToMarkdown (Json.arr (Json.null :: items)) = bulletsRender (Json.null :: items) ∧
      jsonToMarkdown (Json.arr (Json.bool b :: items)) =
        bulletsRender (Json.bool b :: items) ∧
      jsonToMarkdown (Json.arr (Json.num r :: items)) = bulletsRender (Json.num r :: items) ∧
      jsonToMarkdown (Json.arr (Json.str s :: items)) = bulletsRender (Json.str s :: items) ∧
      jsonToMarkdown (Json.arr (Json.arr elts :: items)) =
        bulletsRender (Json.arr elts :: items)) ∧
    (jsKeys (Json.num r) = some [] ∧ jsKeys (Json.bool b) = some [] ∧
      jsKeys (Json.str s) = some (indexKeys s.length)) := by
  refine ⟨⟨?_, ?_, ?_, ?_, ?_, ?_⟩, rfl, rfl, rfl⟩ <;> simp [jsonToMarkdown]

/-- **C4 counterexample**: the claim says the recovered deltas are
recomputed from the parsed FormatMetrics; but a report whose prose line
asserts `saved 400 tokens (28.5%)` while its table shows JSON 100 / TOON
109 parses with `tokenSavings = 400` taken verbatim from the prose — the
recomputed difference would be `100 − 109 = −9`. -/
theorem c4_deltas_counterexample :
    (parseMarkdownReport (str "Format | Input tokens sent | a | b | c | d\nJSON | 100 | 1 | 2 | 3.0ms | 50.0ms\nTOON | 109 | 1 | 2 | 3.0ms | 40.0ms\nMARKDOWN | 120 | 1 | 2 | 3.0ms | 60.0ms\nTOON vs JSON: saved 400 tokens (28.5%)")).map
        (fun r => r.deltas.toonVsJson.tokenSavings) = some (some 400) ∧
    (parseMarkdownReport (str "Format | Input tokens sent | a | b | c | d\nJSON | 100 | 1 | 2 | 3.0ms | 50.0ms\nTOON | 109 | 1 | 2 | 3.0ms | 40.0ms\nMARKDOWN | 120 | 1 | 2 | 3.0ms | 60.0ms\nTOON vs JSON: saved 400 tokens (28.5%)")).map
        (fun r => r.formats.map (·.preflightTokenCount)) =
      some [some 100, some 109, some 120] ∧
    jsSub (some 100) (some 109) = some (-9 : ℚ) ∧
    (some (-9 : ℚ) : Option ℚ) ≠ some 400 := by
  refine ⟨by decide, by decide, ?_, ?_⟩
  · simp only [jsSub, Option.some_inj]
    norm_num
  · simp only [ne_eq, Option.some_inj]
    norm_num

/-- **C4 amended**: for every successfully parsed report the token-savings
figures (absolute and percent) are taken verbatim from `parseTokenSavings`
on the first matching executive-summary prose line (defaulting to 0 when
no such line exists), *not* recomputed from the table; only the latency
deltas are recomputed (as differences of the parsed per-format latencies),
the pairwise conversion overheads are taken at face value from their
dedicated overhead lines, and the MARKDOWN-vs-TOON overhead is the
difference of the two parsed overheads. -/
theorem c4_deltas_amended (content : Str) (rec : BenchmarkReport)
    (h : parseMarkdownReport content = some rec) :
    ((splitChar '\n' content).find? (fun l => containsSub (str "TOON vs JSON:") l) = none →
      rec.deltas.toonVsJson.tokenSavings = some 0 ∧
      rec.deltas.toonVsJson.tokenSavingsPercent = some 0) ∧
    (∀ l, (splitChar '\n' content).find? (fun l => containsSub (str "TOON vs JSON:") l) =
        some l →
      rec.deltas.toonVsJson.tokenSavings = (parseTokenSavings l).1 ∧
      rec.deltas.toonVsJson.tokenSavingsPercent = (parseTokenSavings l).2) ∧
    (∃ jsonMetrics toonMetrics markdownMetrics,
      (extractTableFormats (splitChar '\n' content) false []).find?
        (fun f => decide (f.format = str "JSON")) = some jsonMetrics ∧
      (extractTableFormats (splitChar '\n' content) false []).find?
        (fun f => decide (f.format = str "TOON")) = some toonMetrics ∧
      (extractTableFormats (splitChar '\n' content) false []).find?
        (fun f => decide (f.format = str "MARKDOWN")) = some markdownMetrics ∧
      rec.deltas.toonVsJson.apiLatencyDeltaMs =
        jsSub jsonMetrics.apiLatencyMs toonMetrics.apiLatencyMs ∧
      rec.deltas.markdownVsJson.apiLatencyDeltaMs =
        jsSub jsonMetrics.apiLatencyMs markdownMetrics.apiLatencyMs ∧
      rec.deltas.markdownVsToon.apiLatencyDeltaMs =
        jsSub toonMetrics.apiLatencyMs markdownMetrics.apiLatencyMs) ∧
    rec.deltas.markdownVsToon.conversionOverheadMs =
      jsSub rec.deltas.markdownVsJson.conversionOverheadMs
        rec.deltas.toonVsJson.conversionOverheadMs := by
  simp only [parseMarkdownReport] at h
  split at h
  · exact absurd h (by simp)
  · split at h
    · rename_i jsonMetrics toonMetrics markdownMetrics hj ht hm
      rw [Option.some_inj] at h
      subst h
      refine ⟨fun hnone => ?_, fun l hl => ?_,
        ⟨jsonMetrics, toonMetrics, markdownMetrics, hj, ht, hm, rfl, rfl, rfl⟩, rfl⟩
      · simp [hnone]
      · simp [hl]
    · exact absurd h (by simp)

/-- Witness for C4 amended: the counterexample document parses, and the
overhead-difference relation holds on its recovered record. -/
theorem c4_deltas_amended_witness :
    ∃ rec, parseMarkdownReport (str "Format | Input tokens sent | a | b | c | d\nJSON | 100 | 1 | 2 | 3.0ms | 50.0ms\nTOON | 109 | 1 | 2 | 3.0ms | 40.0ms\nMARKDOWN | 120 | 1 | 2 | 3.0ms | 60.0ms\nTOON vs JSON: saved 400 tokens (28.5%)") =
        some rec ∧
      rec.deltas.markdownVsToon.conversionOverheadMs =
        jsSub rec.deltas.markdownVsJson.conversionOverheadMs
          rec.deltas.toonVsJson.conversionOverheadMs := by
  have hsome : (parseMarkdownReport (str "Format | Input tokens sent | a | b | c | d\nJSON | 100 | 1 | 2 | 3.0ms | 50.0ms\nTOON | 109 | 1 | 2 | 3.0ms | 40.0ms\nMARKDOWN | 120 | 1 | 2 | 3.0ms | 60.0ms\nTOON vs JSON: saved 400 tokens (28.5%)")).isSome =
      true := by decide
  refine ⟨_, (Option.some_get hsome).symm, ?_⟩
  exact (c4_deltas_amended _ _ (Option.some_get hsome).symm).2.2.2

/-! ## Lemmas: cleanliness of the aggregate-summary rendering -/

theorem clean_natToDigits {n : ℕ} : ∀ c ∈ natToDigits n, c ≠ '|' ∧ c ≠ '\n' :=
  fun _ hc => clean_from_cell (clean_of_isDigit (natToDigits_all_digits _ hc))

theorem roundLoc_some (q : ℚ) :
    roundLoc (some q) = if jsRound q < 0 then '-' :: toLocaleStringNat (jsRound q).natAbs
      else toLocaleStringNat (jsRound q).toNat := rfl

theorem cell_clean_roundLoc {o : Option ℚ} : ∀ c ∈ roundLoc o,
    c ≠ '|' ∧ jsWs c = false := by
  intro c hc
  cases o with
  | none => revert c hc; decide
  | some q =>
    rw [roundLoc_some] at hc
    split at hc
    · rcases List.mem_cons.mp hc with rfl | h
      · exact ⟨by decide, by decide⟩
      · exact cell_clean_toLocaleStringNat c h
    · exact cell_clean_toLocaleStringNat c hc

theorem roundLoc_ne_nil {o : Option ℚ} : roundLoc o ≠ [] := by
  cases o with
  | none => decide
  | some q =>
    rw [roundLoc_some]
    split
    · simp
    · exact toLocaleStringNat_ne_nil

theorem F_not_mem_roundLoc {o : Option ℚ} : 'F' ∉ roundLoc o := by
  cases o with
  | none => decide
  | some q =>
    rw [roundLoc_some]
    split <;> intro hm
    · rcases List.mem_cons.mp hm with e | h
      · exact absurd e (by decide)
      · exact F_not_mem_toLocaleStringNat h
    · exact F_not_mem_toLocaleStringNat hm

theorem cell_clean_roundAbsLoc {o : Option ℚ} : ∀ c ∈ roundAbsLoc o,
    c ≠ '|' ∧ jsWs c = false := by
  intro c hc
  cases o with
  | none => revert c hc; decide
  | some q => exact cell_clean_toLocaleStringNat c hc

theorem cell_clean_toFixedOpt {k : ℕ} {o : Option ℚ} : ∀ c ∈ toFixedOpt k o,
    c ≠ '|' ∧ jsWs c = false := by
  intro c hc
  cases o with
  | none =>
    rw [show toFixedOpt k none = str "NaN" from rfl] at hc
    revert c hc
    decide
  | some q => exact clean_jsToFixed c hc

theorem cell_clean_formatMsOpt {o : Option ℚ} : ∀ c ∈ formatMsOpt o,
    c ≠ '|' ∧ jsWs c = false := by
  intro c hc
  unfold formatMsOpt at hc
  rcases List.mem_append.mp hc with h1 | h2
  · exact cell_clean_toFixedOpt c h1
  · revert h2
    rw [show str "ms" = ['m', 's'] from rfl]
    intro h2
    rcases List.mem_cons.mp h2 with rfl | h3
    · exact ⟨by decide, by decide⟩
    · rcases List.mem_cons.mp h3 with rfl | h4
      · exact ⟨by decide, by decide⟩
      · simp at h4

theorem formatMsOpt_ne_nil {o : Option ℚ} : formatMsOpt o ≠ [] := by
  unfold formatMsOpt
  intro e
  rcases List.append_eq_nil.mp e with ⟨e1, e2⟩
  exact absurd e2 (by decide)

theorem F_not_mem_formatMsOpt {o : Option ℚ} : 'F' ∉ formatMsOpt o := by
  cases o with
  | none => decide
  | some q => exact @F_not_mem_formatMs q

theorem clean_fastestOfAverages {a b c : Option ℚ} :
    ∀ ch ∈ fastestOfAverages a b c, ch ≠ '|' ∧ ch ≠ '\n' := by
  intro ch hc
  unfold fastestOfAverages at hc
  split at hc
  · rcases fastestByLatency_cases _ _ _ with h | h | h <;>
      (rw [h] at hc; revert ch hc; decide)
  · revert ch hc
    decide

theorem aggSavingsLine_clean {label winner loser : Str} {d : ParsedPairDeltas}
    (hlab : ∀ c ∈ label, c ≠ '|' ∧ c ≠ '\n')
    (hw : ∀ c ∈ winner, c ≠ '|' ∧ c ≠ '\n')
    (hlo : ∀ c ∈ loser, c ≠ '|' ∧ c ≠ '\n') :
    ∀ c ∈ aggSavingsLine label winner loser d, c ≠ '|' ∧ c ≠ '\n' := by
  intro c hc
  unfold aggSavingsLine at hc
  simp only [List.append_assoc, List.mem_append] at hc
  rcases hc with h | h | h | h | h | h | h
  · exact hlab c h
  · split at h
    · exact hw c h
    · exact hlo c h
  · revert c h; decide
  · exact clean_from_cell (cell_clean_roundAbsLoc c h)
  · revert c h; decide
  · exact clean_from_cell (cell_clean_toFixedOpt c h)
  · revert c h; decide

theorem aggMetricsRow_eq_joinWith (label : Str) (m : ParsedFormatMetrics) :
    aggMetricsRow label m = joinWith (str " | ")
      [label, roundLoc m.preflightTokenCount, roundLoc m.responsePromptTokenCount,
       roundLoc m.responseTotalTokenCount, formatMsOpt m.conversionMs,
       formatMsOpt m.apiLatencyMs] := by
  simp [aggMetricsRow, joinWith, List.append_assoc]

theorem aggRow_cells_clean {tagS : Str} {m : ParsedFormatMetrics}
    (htag : tagS = str "JSON" ∨ tagS = str "TOON" ∨ tagS = str "MARKDOWN") :
    ∀ cl ∈ [tagS, roundLoc m.preflightTokenCount, roundLoc m.responsePromptTokenCount,
      roundLoc m.responseTotalTokenCount, formatMsOpt m.conversionMs,
      formatMsOpt m.apiLatencyMs],
      cl ≠ [] ∧ ∀ ch ∈ cl, ch ≠ '|' ∧ jsWs ch = false := by
  intro cl hcl
  simp only [List.mem_cons, List.mem_singleton, List.not_mem_nil, or_false] at hcl
  rcases hcl with rfl | rfl | rfl | rfl | rfl | rfl
  · rcases htag with rfl | rfl | rfl <;> exact ⟨by decide, by intro ch hch; revert ch hch; decide⟩
  · exact ⟨roundLoc_ne_nil, cell_clean_roundLoc⟩
  · exact ⟨roundLoc_ne_nil, cell_clean_roundLoc⟩
  · exact ⟨roundLoc_ne_nil, cell_clean_roundLoc⟩
  · exact ⟨formatMsOpt_ne_nil, cell_clean_formatMsOpt⟩
  · exact ⟨formatMsOpt_ne_nil, cell_clean_formatMsOpt⟩

theorem aggRow_cells_noF {tagS : Str} {m : ParsedFormatMetrics}
    (htag : tagS = str "JSON" ∨ tagS = str "TOON" ∨ tagS = str "MARKDOWN") :
    ∀ cl ∈ [tagS, roundLoc m.preflightTokenCount, roundLoc m.responsePromptTokenCount,
      roundLoc m.responseTotalTokenCount, formatMsOpt m.conversionMs,
      formatMsOpt m.apiLatencyMs], 'F' ∉ cl := by
  intro cl hcl
  simp only [List.mem_cons, List.mem_singleton, List.not_mem_nil, or_false] at hcl
  rcases hcl with rfl | rfl | rfl | rfl | rfl | rfl
  · rcases htag with rfl | rfl | rfl <;> decide
  · exact F_not_mem_roundLoc
  · exact F_not_mem_roundLoc
  · exact F_not_mem_roundLoc
  · exact F_not_mem_formatMsOpt
  · exact F_not_mem_formatMsOpt

/-- Any `##` heading without a pipe stops the table scan. -/
theorem extract_break_of {line : Str} {rest : List Str} {fmts : List ParsedFormatMetrics}
    (h1 : containsSub (str "Format | Input tokens sent") line = false)
    (h2 : containsSub (str "|") line = false)
    (h3 : hasPre (str "##") line = true) :
    extractTableFormats (line :: rest) true fmts = fmts := by
  conv_lhs => rw [extractTableFormats]
  simp [h1, h2, h3]

/-- The in-table walk for the aggregate summary's three average rows. -/
theorem agg_extract_table_core {mJ mT mM : ParsedFormatMetrics} {post : List Str} :
    extractTableFormats
      (str "Format | Input tokens sent | Prompt tokens in response | Total tokens in response | Data prep time | Gemini response time" ::
        str "--- | --- | --- | --- | --- | ---" ::
        (aggMetricsRow (str "JSON") mJ :: aggMetricsRow (str "TOON") mT ::
          aggMetricsRow (str "MARKDOWN") mM ::
          ([] :: str "## Comparison Deltas (Average)" :: post))) false [] =
      [rowToMetrics (str "JSON") (roundLoc mJ.preflightTokenCount)
        (roundLoc mJ.responsePromptTokenCount) (roundLoc mJ.responseTotalTokenCount)
        (formatMsOpt mJ.conversionMs) (formatMsOpt mJ.apiLatencyMs),
       rowToMetrics (str "TOON") (roundLoc mT.preflightTokenCount)
        (roundLoc mT.responsePromptTokenCount) (roundLoc mT.responseTotalTokenCount)
        (formatMsOpt mT.conversionMs) (formatMsOpt mT.apiLatencyMs),
       rowToMetrics (str "MARKDOWN") (roundLoc mM.preflightTokenCount)
        (roundLoc mM.responsePromptTokenCount) (roundLoc mM.responseTotalTokenCount)
        (formatMsOpt mM.conversionMs) (formatMsOpt mM.apiLatencyMs)] := by
  rw [extract_header (by decide)]
  rw [extract_sep_row]
  rw [aggMetricsRow_eq_joinWith (str "JSON") mJ]
  rw [extract_data_row (aggRow_cells_clean (Or.inl rfl)) (aggRow_cells_noF (Or.inl rfl))
    (by decide) (by decide) ⟨'J', str "SON", rfl, by decide⟩]
  rw [aggMetricsRow_eq_joinWith (str "TOON") mT]
  rw [extract_data_row (aggRow_cells_clean (Or.inr (Or.inl rfl)))
    (aggRow_cells_noF (Or.inr (Or.inl rfl)))
    (by decide) (by decide) ⟨'T', str "OON", rfl, by decide⟩]
  rw [aggMetricsRow_eq_joinWith (str "MARKDOWN") mM]
  rw [extract_data_row (aggRow_cells_clean (Or.inr (Or.inr rfl)))
    (aggRow_cells_noF (Or.inr (Or.inr rfl)))
    (by decide) (by decide) ⟨'M', str "ARKDOWN", rfl, by decide⟩]
  rw [extract_blank_in_table, extract_break_of (by decide) (by decide) (by decide)]
  simp

theorem no_nl_append {s t : Str} (hs : '\n' ∉ s) (ht : '\n' ∉ t) : '\n' ∉ s ++ t := by
  intro hm
  rcases List.mem_append.mp hm with h | h
  · exact hs h
  · exact ht h

theorem no_nl_roundLoc {o : Option ℚ} : '\n' ∉ roundLoc o :=
  fun hm => (clean_from_cell (cell_clean_roundLoc _ hm)).2 rfl

theorem no_nl_roundAbsLoc {o : Option ℚ} : '\n' ∉ roundAbsLoc o :=
  fun hm => (clean_from_cell (cell_clean_roundAbsLoc _ hm)).2 rfl

theorem no_nl_toFixedOpt {k : ℕ} {o : Option ℚ} : '\n' ∉ toFixedOpt k o :=
  fun hm => (clean_from_cell (cell_clean_toFixedOpt _ hm)).2 rfl

theorem no_nl_formatMsOpt {o : Option ℚ} : '\n' ∉ formatMsOpt o :=
  fun hm => (clean_from_cell (cell_clean_formatMsOpt _ hm)).2 rfl

theorem no_nl_natToDigits {n : ℕ} : '\n' ∉ natToDigits n :=
  fun hm => (clean_natToDigits _ hm).2 rfl

theorem meta2_line_no_pipe {pre mid s t : Str} (hpre : '|' ∉ pre) (hmid : '|' ∉ mid)
    (hs : ∀ c ∈ s, c ≠ '|' ∧ c ≠ '\n') (ht : ∀ c ∈ t, c ≠ '|' ∧ c ≠ '\n') :
    '|' ∉ pre ++ s ++ mid ++ t := by
  intro hm
  rcases List.mem_append.mp hm with h | h
  · rcases List.mem_append.mp h with h2 | h2
    · rcases List.mem_append.mp h2 with h3 | h3
      · exact hpre h3
      · exact (hs _ h3).1 rfl
    · exact hmid h2
  · exact (ht _ h).1 rfl

theorem meta2_line_no_nl {pre mid s t : Str} (hpre : '\n' ∉ pre) (hmid : '\n' ∉ mid)
    (hs : ∀ c ∈ s, c ≠ '|' ∧ c ≠ '\n') (ht : ∀ c ∈ t, c ≠ '|' ∧ c ≠ '\n') :
    '\n' ∉ pre ++ s ++ mid ++ t := by
  intro hm
  rcases List.mem_append.mp hm with h | h
  · rcases List.mem_append.mp h with h2 | h2
    · rcases List.mem_append.mp h2 with h3 | h3
      · exact hpre h3
      · exact (hs _ h3).2 rfl
    · exact hmid h2
  · exact (ht _ h).2 rfl

theorem aggMetricsRow_no_nl {tagS : Str} {m : ParsedFormatMetrics}
    (htag : tagS = str "JSON" ∨ tagS = str "TOON" ∨ tagS = str "MARKDOWN") :
    '\n' ∉ aggMetricsRow tagS m := by
  intro hc
  rw [aggMetricsRow_eq_joinWith] at hc
  rcases mem_joinWith hc with ⟨cl, hcl, hccl⟩ | hsep
  · exact ne_nl_of_ws_false ((aggRow_cells_clean htag cl hcl).2 _ hccl).2 rfl
  · revert hsep
    decide

/-- The aggregator's own summary report parses back as a benchmark report:
its three average rows are re-extracted as `rowToMetrics` of the rendered
average cells. -/
theorem agg_parse_formats (S : AggregatedSummary)
    (hmodel : ∀ c ∈ S.model, c ≠ '|' ∧ c ≠ '\n')
    (hearliest : ∀ c ∈ S.dateRange.earliest, c ≠ '|' ∧ c ≠ '\n')
    (hlatest : ∀ c ∈ S.dateRange.latest, c ≠ '|' ∧ c ≠ '\n')
    (hfast : ∀ c ∈ S.fastestFormat, c ≠ '|' ∧ c ≠ '\n') :
    (parseMarkdownReport (generateSummaryReport S)).map (fun r => r.formats) =
      some
        [rowToMetrics (str "JSON") (roundLoc S.averageMetrics.JSON.preflightTokenCount)
          (roundLoc S.averageMetrics.JSON.responsePromptTokenCount)
          (roundLoc S.averageMetrics.JSON.responseTotalTokenCount)
          (formatMsOpt S.averageMetrics.JSON.conversionMs)
          (formatMsOpt S.averageMetrics.JSON.apiLatencyMs),
         rowToMetrics (str "TOON") (roundLoc S.averageMetrics.TOON.preflightTokenCount)
          (roundLoc S.averageMetrics.TOON.responsePromptTokenCount)
          (roundLoc S.averageMetrics.TOON.responseTotalTokenCount)
          (formatMsOpt S.averageMetrics.TOON.conversionMs)
          (formatMsOpt S.averageMetrics.TOON.apiLatencyMs),
         rowToMetrics (str "MARKDOWN") (roundLoc S.averageMetrics.MARKDOWN.preflightTokenCount)
          (roundLoc S.averageMetrics.MARKDOWN.responsePromptTokenCount)
          (roundLoc S.averageMetrics.MARKDOWN.responseTotalTokenCount)
          (formatMsOpt S.averageMetrics.MARKDOWN.conversionMs)
          (formatMsOpt S.averageMetrics.MARKDOWN.apiLatencyMs)] := by
  unfold generateSummaryReport
  apply parseMarkdownReport_formats _ rfl rfl rfl
  rw [splitChar_joinWith ?hnl ?hne]
  case hne => simp
  case hnl =>
    intro l hl
    simp only [aggDeltaSection, List.mem_append, List.mem_cons, List.not_mem_nil, or_false,
      or_assoc] at hl
    rcases hl with rfl | rfl | rfl | rfl | rfl | rfl | rfl | rfl | rfl | rfl | rfl | rfl | rfl |
      rfl | rfl | rfl | rfl | rfl | rfl | rfl | rfl | rfl | rfl | rfl | rfl | rfl | rfl | rfl |
      rfl | rfl | rfl | rfl | rfl | rfl | rfl | rfl | rfl | rfl | rfl | rfl | rfl | rfl | rfl |
      rfl | rfl | rfl | rfl | rfl | rfl | rfl | rfl | rfl | rfl | rfl | rfl | rfl | rfl | rfl |
      rfl | rfl | rfl | rfl
    · decide
    · decide
    · exact meta_line_no_nl (by decide) clean_natToDigits
    · exact meta_line_no_nl (by decide) hmodel
    · exact meta2_line_no_nl (by decide) (by decide) hearliest hlatest
    · exact meta_line_no_nl (by decide) hfast
    · decide
    · decide
    · decide
    · decide
    · decide
    · exact fun hm => (aggSavingsLine_clean (by decide) (by decide) (by decide) '\n' hm).2 rfl
    · exact fun hm => (aggSavingsLine_clean (by decide) (by decide) (by decide) '\n' hm).2 rfl
    · exact fun hm => (aggSavingsLine_clean (by decide) (by decide) (by decide) '\n' hm).2 rfl
    · decide
    · decide
    · decide
    · exact meta_line_no_nl (by decide) hfast
    · exact meta_line_no_nl (by decide) (fun c hc => clean_from_cell (cell_clean_formatMsOpt c hc))
    · exact meta_line_no_nl (by decide) (fun c hc => clean_from_cell (cell_clean_formatMsOpt c hc))
    · decide
    · decide
    · decide
    · decide
    · decide
    · exact aggMetricsRow_no_nl (Or.inl rfl)
    · exact aggMetricsRow_no_nl (Or.inr (Or.inl rfl))
    · exact aggMetricsRow_no_nl (Or.inr (Or.inr rfl))
    · decide
    · decide
    · decide
    · decide
    · exact no_nl_append (no_nl_append (no_nl_append (no_nl_append (by decide) no_nl_roundLoc)
        (by decide)) no_nl_toFixedOpt) (by decide)
    · exact no_nl_append (by decide) no_nl_formatMsOpt
    · exact no_nl_append (by decide) no_nl_formatMsOpt
    · decide
    · decide
    · exact no_nl_append (no_nl_append (no_nl_append (no_nl_append (by decide) no_nl_roundLoc)
        (by decide)) no_nl_toFixedOpt) (by decide)
    · exact no_nl_append (by decide) no_nl_formatMsOpt
    · exact no_nl_append (by decide) no_nl_formatMsOpt
    · decide
    · decide
    · exact no_nl_append (no_nl_append (no_nl_append (no_nl_append (by decide) no_nl_roundLoc)
        (by decide)) no_nl_toFixedOpt) (by decide)
    · exact no_nl_append (by decide) no_nl_formatMsOpt
    · exact no_nl_append (by decide) no_nl_formatMsOpt
    · decide
    · decide
    · decide
    · exact no_nl_append (no_nl_append (no_nl_append (no_nl_append (by decide)
        (by split <;> decide)) (by decide)) no_nl_toFixedOpt) (by decide)
    · decide
    · exact no_nl_append (no_nl_append (no_nl_append (no_nl_append (by decide)
        (fun hm => (hfast _ hm).2 rfl)) (by decide)) no_nl_formatMsOpt) (by decide)
    · decide
    · exact no_nl_append (no_nl_append (no_nl_append (no_nl_append (by decide)
        (by split <;> decide)) (by decide)) no_nl_formatMsOpt) (by decide)
    · decide
    · decide
    · decide
    · decide
    · decide
    · decide
    · decide
    · decide
    · decide
  simp only [aggDeltaSection, List.cons_append, List.nil_append]
  rw [extract_skip_out (containsSub_eq_false (show '|' ∈ str "Format | Input tokens sent"
    from by decide) (by decide))]
  rw [extract_skip_out (containsSub_eq_false (show '|' ∈ str "Format | Input tokens sent"
    from by decide) (by decide))]
  rw [extract_skip_out (containsSub_eq_false (show '|' ∈ str "Format | Input tokens sent"
    from by decide) (meta_line_no_pipe (by decide) clean_natToDigits))]
  rw [extract_skip_out (containsSub_eq_false (show '|' ∈ str "Format | Input tokens sent"
    from by decide) (meta_line_no_pipe (by decide) hmodel))]
  rw [extract_skip_out (containsSub_eq_false (show '|' ∈ str "Format | Input tokens sent"
    from by decide) (meta2_line_no_pipe (by decide) (by decide) hearliest hlatest))]
  rw [extract_skip_out (containsSub_eq_false (show '|' ∈ str "Format | Input tokens sent"
    from by decide) (meta_line_no_pipe (by decide) hfast))]
  rw [extract_skip_out (containsSub_eq_false (show '|' ∈ str "Format | Input tokens sent"
    from by decide) (by decide))]
  rw [extract_skip_out (containsSub_eq_false (show '|' ∈ str "Format | Input tokens sent"
    from by decide) (by decide))]
  rw [extract_skip_out (containsSub_eq_false (show '|' ∈ str "Format | Input tokens sent"
    from by decide) (by decide))]
  rw [extract_skip_out (containsSub_eq_false (show '|' ∈ str "Format | Input tokens sent"
    from by decide) (by decide))]
  rw [extract_skip_out (containsSub_eq_false (show '|' ∈ str "Format | Input tokens sent"
    from by decide) (by decide))]
  rw [extract_skip_out (containsSub_eq_false (show '|' ∈ str "Format | Input tokens sent"
    from by decide) (fun hm => (aggSavingsLine_clean (by decide) (by decide) (by decide)
      '|' hm).1 rfl))]
  rw [extract_skip_out (containsSub_eq_false (show '|' ∈ str "Format | Input tokens sent"
    from by decide) (fun hm => (aggSavingsLine_clean (by decide) (by decide) (by decide)
      '|' hm).1 rfl))]
  rw [extract_skip_out (containsSub_eq_false (show '|' ∈ str "Format | Input tokens sent"
    from by decide) (fun hm => (aggSavingsLine_clean (by decide) (by decide) (by decide)
      '|' hm).1 rfl))]
  rw [extract_skip_out (containsSub_eq_false (show '|' ∈ str "Format | Input tokens sent"
    from by decide) (by decide))]
  rw [extract_skip_out (containsSub_eq_false (show '|' ∈ str "Format | Input tokens sent"
    from by decide) (by decide))]
  rw [extract_skip_out (containsSub_eq_false (show '|' ∈ str "Format | Input tokens sent"
    from by decide) (by decide))]
  rw [extract_skip_out (containsSub_eq_false (show '|' ∈ str "Format | Input tokens sent"
    from by decide) (meta_line_no_pipe (by decide) hfast))]
  rw [extract_skip_out (containsSub_eq_false (show '|' ∈ str "Format | Input tokens sent"
    from by decide) (meta_line_no_pipe (by decide)
      (fun c hc => clean_from_cell (cell_clean_formatMsOpt c hc))))]
  rw [extract_skip_out (containsSub_eq_false (show '|' ∈ str "Format | Input tokens sent"
    from by decide) (meta_line_no_pipe (by decide)
      (fun c hc => clean_from_cell (cell_clean_formatMsOpt c hc))))]
  rw [extract_skip_out (containsSub_eq_false (show '|' ∈ str "Format | Input tokens sent"
    from by decide) (by decide))]
  rw [extract_skip_out (containsSub_eq_false (show '|' ∈ str "Format | Input tokens sent"
    from by decide) (by decide))]
  rw [extract_skip_out (containsSub_eq_false (show '|' ∈ str "Format | Input tokens sent"
    from by decide) (by decide))]
  rw [agg_extract_table_core]

/-- **C3 counterexample**: the claim says a second aggregation run on the
directory left unchanged except for the aggregator's own previous output is
byte-identical; but `OVERALL_COMPARISON_SUMMARY.md` itself contains the
table-header marker and three parseable average rows, sorts before `a.md`
(`'O' < 'a'`), and is re-ingested as an extra report: the second run's
summary counts 2 runs instead of 1, so the written summary (and its JSON
snapshot, `JSON.stringify` of the same value) differs. -/
theorem c3_idempotence_counterexample :
    ∃ S1 M1 S2 M2,
      aggregateReports [(str "a.md",
        str "Format | Input tokens sent | a | b | c | d\nJSON | 100 | 1 | 2 | 3.0ms | 50.0ms\nTOON | 90 | 1 | 2 | 4.0ms | 40.0ms\nMARKDOWN | 120 | 1 | 2 | 5.0ms | 60.0ms")] =
        AggOutcome.wrote S1 M1 ∧
      aggregateReports [(str "OVERALL_COMPARISON_SUMMARY.md", M1), (str "a.md",
        str "Format | Input tokens sent | a | b | c | d\nJSON | 100 | 1 | 2 | 3.0ms | 50.0ms\nTOON | 90 | 1 | 2 | 4.0ms | 40.0ms\nMARKDOWN | 120 | 1 | 2 | 5.0ms | 60.0ms")] =
        AggOutcome.wrote S2 M2 ∧
      S1.totalRuns = 1 ∧ S2.totalRuns = 2 ∧ S1 ≠ S2 := by
  have hRsome : (parseMarkdownReport
      (str "Format | Input tokens sent | a | b | c | d\nJSON | 100 | 1 | 2 | 3.0ms | 50.0ms\nTOON | 90 | 1 | 2 | 4.0ms | 40.0ms\nMARKDOWN | 120 | 1 | 2 | 5.0ms | 60.0ms")).isSome =
      true := by decide
  have hRmodel : (parseMarkdownReport
      (str "Format | Input tokens sent | a | b | c | d\nJSON | 100 | 1 | 2 | 3.0ms | 50.0ms\nTOON | 90 | 1 | 2 | 4.0ms | 40.0ms\nMARKDOWN | 120 | 1 | 2 | 5.0ms | 60.0ms")).map
      (fun r => r.model) = some (str "unknown") := by decide
  have hRts : (parseMarkdownReport
      (str "Format | Input tokens sent | a | b | c | d\nJSON | 100 | 1 | 2 | 3.0ms | 50.0ms\nTOON | 90 | 1 | 2 | 4.0ms | 40.0ms\nMARKDOWN | 120 | 1 | 2 | 5.0ms | 60.0ms")).map
      (fun r => r.timestamp) = some [] := by decide
  obtain ⟨rec, hrec⟩ := Option.isSome_iff_exists.mp hRsome
  rw [hrec] at hRmodel hRts
  simp only [Option.map_some', Option.some_inj] at hRmodel hRts
  have hcollect1 : collectReports
      [str "Format | Input tokens sent | a | b | c | d\nJSON | 100 | 1 | 2 | 3.0ms | 50.0ms\nTOON | 90 | 1 | 2 | 4.0ms | 40.0ms\nMARKDOWN | 120 | 1 | 2 | 5.0ms | 60.0ms"] =
      [rec] := by
    simp [collectReports, hrec]
  have hrun1 : aggregateReports [(str "a.md",
      str "Format | Input tokens sent | a | b | c | d\nJSON | 100 | 1 | 2 | 3.0ms | 50.0ms\nTOON | 90 | 1 | 2 | 4.0ms | 40.0ms\nMARKDOWN | 120 | 1 | 2 | 5.0ms | 60.0ms")] =
      AggOutcome.wrote (buildSummary [rec]) (generateSummaryReport (buildSummary [rec])) := by
    simp +decide [aggregateReports, List.filter, List.insertionSort, List.orderedInsert,
      hcollect1]
  have htot1 : (buildSummary [rec]).totalRuns = 1 := by simp [buildSummary]
  have hm1 : (buildSummary [rec]).model = str "unknown" := by
    simp +decide [buildSummary, hRmodel]
  have hdr1 : (buildSummary [rec]).dateRange.earliest = [] ∧
      (buildSummary [rec]).dateRange.latest = [] := by
    constructor <;> simp [buildSummary, hRts, List.insertionSort, List.orderedInsert]
  have hfast1 : ∀ c ∈ (buildSummary [rec]).fastestFormat, c ≠ '|' ∧ c ≠ '\n' := by
    simp only [buildSummary]
    exact clean_fastestOfAverages
  have hP1 := agg_parse_formats (buildSummary [rec])
    (by rw [hm1]; decide) (by rw [hdr1.1]; decide) (by rw [hdr1.2]; decide) hfast1
  have hOsome : (parseMarkdownReport (generateSummaryReport (buildSummary [rec]))).isSome =
      true := by
    cases hp : parseMarkdownReport (generateSummaryReport (buildSummary [rec])) with
    | none => rw [hp] at hP1; simp at hP1
    | some r => rfl
  obtain ⟨recO, hrecO⟩ := Option.isSome_iff_exists.mp hOsome
  have hcollect2 : collectReports [generateSummaryReport (buildSummary [rec]),
      str "Format | Input tokens sent | a | b | c | d\nJSON | 100 | 1 | 2 | 3.0ms | 50.0ms\nTOON | 90 | 1 | 2 | 4.0ms | 40.0ms\nMARKDOWN | 120 | 1 | 2 | 5.0ms | 60.0ms"] =
      [recO, rec] := by
    simp [collectReports, hrecO, hrec]
  have hrun2 : aggregateReports [(str "OVERALL_COMPARISON_SUMMARY.md",
      generateSummaryReport (buildSummary [rec])), (str "a.md",
      str "Format | Input tokens sent | a | b | c | d\nJSON | 100 | 1 | 2 | 3.0ms | 50.0ms\nTOON | 90 | 1 | 2 | 4.0ms | 40.0ms\nMARKDOWN | 120 | 1 | 2 | 5.0ms | 60.0ms")] =
      AggOutcome.wrote (buildSummary [recO, rec])
        (generateSummaryReport (buildSummary [recO, rec])) := by
    simp +decide [aggregateReports, List.filter, List.insertionSort, List.orderedInsert,
      hcollect2]
  have htot2 : (buildSummary [recO, rec]).totalRuns = 2 := by simp [buildSummary]
  refine ⟨buildSummary [rec], generateSummaryReport (buildSummary [rec]),
    buildSummary [recO, rec], generateSummaryReport (buildSummary [recO, rec]),
    hrun1, hrun2, htot1, htot2, fun he => ?_⟩
  have : (1 : ℕ) = 2 := by rw [← htot1, he, htot2]
  exact absurd this (by decide)

/-- **C3 amended**: the aggregator is a pure function of the directory
listing, but the directory is *not* unchanged after a run: the previous
`OVERALL_COMPARISON_SUMMARY.md` itself parses as a benchmark report (its
average table re-extracts), so re-ingesting it adds exactly one parsed
report to the collection — the run count grows and the output changes. -/
theorem c3_idempotence_amended (S : AggregatedSummary)
    (hmodel : ∀ c ∈ S.model, c ≠ '|' ∧ c ≠ '\n')
    (hearliest : ∀ c ∈ S.dateRange.earliest, c ≠ '|' ∧ c ≠ '\n')
    (hlatest : ∀ c ∈ S.dateRange.latest, c ≠ '|' ∧ c ≠ '\n')
    (hfast : ∀ c ∈ S.fastestFormat, c ≠ '|' ∧ c ≠ '\n') :
    (parseMarkdownReport (generateSummaryReport S)).isSome = true ∧
    ∀ pre post : List Str,
      (collectReports (pre ++ generateSummaryReport S :: post)).length =
        (collectReports (pre ++ post)).length + 1 := by
  have h := agg_parse_formats S hmodel hearliest hlatest hfast
  have hsome : (parseMarkdownReport (generateSummaryReport S)).isSome = true := by
    cases hp : parseMarkdownReport (generateSummaryReport S) with
    | none => rw [hp] at h; simp at h
    | some r => rfl
  refine ⟨hsome, fun pre post => ?_⟩
  obtain ⟨r, hr⟩ := Option.isSome_iff_exists.mp hsome
  simp [collectReports, List.filterMap_append, List.filterMap_cons, hr]
  omega

/-- Witness for C3 amended: a concrete all-`n/a` summary record whose
rendering parses, and whose re-ingestion adds one report to an otherwise
empty collection. -/
theorem c3_idempotence_amended_witness :
    (parseMarkdownReport (generateSummaryReport
      ⟨0, str "m", ⟨[], []⟩,
       ⟨⟨str "JSON", none, none, none, none, none⟩,
        ⟨str "TOON", none, none, none, none, none⟩,
        ⟨str "MARKDOWN", none, none, none, none, none⟩⟩,
       ⟨⟨none, none, none, none⟩, ⟨none, none, none, none⟩, ⟨none, none, none, none⟩⟩,
       str "JSON"⟩)).isSome = true ∧
    (collectReports ([] ++ generateSummaryReport
      ⟨0, str "m", ⟨[], []⟩,
       ⟨⟨str "JSON", none, none, none, none, none⟩,
        ⟨str "TOON", none, none, none, none, none⟩,
        ⟨str "MARKDOWN", none, none, none, none, none⟩⟩,
       ⟨⟨none, none, none, none⟩, ⟨none, none, none, none⟩, ⟨none, none, none, none⟩⟩,
       str "JSON"⟩ :: [])).length = (collectReports ([] ++ [])).length + 1 := by
  have h := c3_idempotence_amended
    ⟨0, str "m", ⟨[], []⟩,
     ⟨⟨str "JSON", none, none, none, none, none⟩,
      ⟨str "TOON", none, none, none, none, none⟩,
      ⟨str "MARKDOWN", none, none, none, none, none⟩⟩,
     ⟨⟨none, none, none, none⟩, ⟨none, none, none, none⟩, ⟨none, none, none, none⟩⟩,
     str "JSON"⟩ (by decide) (by decide) (by decide) (by decide)
  exact ⟨h.1, h.2 [] []⟩

end TJB
